import Mathlib

set_option maxRecDepth 100000
set_option linter.unusedVariables false

/-!
# Verification of the sqlxm migration engine

Shallow embedding of the sqlxm Go library: the checksum function
(`hashQuery`, an MD5 digest over the statement text and the Go `%v`
rendering of the argument slice), the migration ledger (`Migrator`),
the execution engine (`Migrator.run` with its transaction semantics),
and the backend registry / binding model (`RegisterBackend`,
`BackendType`, `New`, `UseBackend`).

Database effects are modelled by an explicit `DB` state; fallible
backend calls are driven by an `Env` of error oracles; the single
transaction opened by `run` is modelled by threading a `DBData` copy
that is either committed back into the `DB` or discarded (rollback).
-/

/-- A Go `interface{}` value as far as `fmt.Sprintf("%v", ...)` is concerned:
strings print verbatim, integers in decimal, and a slice prints as the
bracketed, space-separated rendering of its elements. -/
inductive GoVal where
  | str (s : String)
  | int (n : Int)
  | slice (xs : List GoVal)

mutual

/-- Go `fmt.Sprintf("%v", v)`. -/
def goFmt : GoVal → String
  | .str s => s
  | .int n => toString n
  | .slice xs => "[" ++ String.intercalate " " (goFmtList xs) ++ "]"

/-- `%v` rendering of each element of a slice. -/
def goFmtList : List GoVal → List String
  | [] => []
  | x :: xs => goFmt x :: goFmtList xs

end

/-- UTF-8 encoding of one character, as byte values. -/
def charUtf8 (c : Char) : List Nat :=
  let n := c.toNat
  if n < 128 then [n]
  else if n < 2048 then [192 + n / 64, 128 + n % 64]
  else if n < 65536 then [224 + n / 4096, 128 + (n / 64) % 64, 128 + n % 64]
  else [240 + n / 262144, 128 + (n / 4096) % 64, 128 + (n / 64) % 64, 128 + n % 64]

/-- UTF-8 bytes of a string (Go strings are byte slices holding UTF-8). -/
def strBytes (s : String) : List Nat :=
  s.data.foldr (fun c acc => charUtf8 c ++ acc) []

/-- Bitwise complement on 32-bit words represented as `Nat`. -/
def not32 (x : Nat) : Nat := 4294967295 ^^^ x

/-- Left-rotation of a 32-bit word. -/
def rotl32 (x n : Nat) : Nat :=
  (((x <<< n) % 4294967296) ||| (x >>> (32 - n)))

/-- The MD5 sine-derived constant table `K`. -/
def md5K : List Nat :=
  [0xd76aa478, 0xe8c7b756, 0x242070db, 0xc1bdceee,
   0xf57c0faf, 0x4787c62a, 0xa8304613, 0xfd469501,
   0x698098d8, 0x8b44f7af, 0xffff5bb1, 0x895cd7be,
   0x6b901122, 0xfd987193, 0xa679438e, 0x49b40821,
   0xf61e2562, 0xc040b340, 0x265e5a51, 0xe9b6c7aa,
   0xd62f105d, 0x02441453, 0xd8a1e681, 0xe7d3fbc8,
   0x21e1cde6, 0xc33707d6, 0xf4d50d87, 0x455a14ed,
   0xa9e3e905, 0xfcefa3f8, 0x676f02d9, 0x8d2a4c8a,
   0xfffa3942, 0x8771f681, 0x6d9d6122, 0xfde5380c,
   0xa4beea44, 0x4bdecfa9, 0xf6bb4b60, 0xbebfbc70,
   0x289b7ec6, 0xeaa127fa, 0xd4ef3085, 0x04881d05,
   0xd9d4d039, 0xe6db99e5, 0x1fa27cf8, 0xc4ac5665,
   0xf4292244, 0x432aff97, 0xab9423a7, 0xfc93a039,
   0x655b59c3, 0x8f0ccc92, 0xffeff47d, 0x85845dd1,
   0x6fa87e4f, 0xfe2ce6e0, 0xa3014314, 0x4e0811a1,
   0xf7537e82, 0xbd3af235, 0x2ad7d2bb, 0xeb86d391]

/-- The MD5 per-round left-rotation amounts. -/
def md5S : List Nat :=
  [7, 12, 17, 22, 7, 12, 17, 22, 7, 12, 17, 22, 7, 12, 17, 22,
   5, 9, 14, 20, 5, 9, 14, 20, 5, 9, 14, 20, 5, 9, 14, 20,
   4, 11, 16, 23, 4, 11, 16, 23, 4, 11, 16, 23, 4, 11, 16, 23,
   6, 10, 15, 21, 6, 10, 15, 21, 6, 10, 15, 21, 6, 10, 15, 21]

/-- Little-endian bytes (`k` of them) of a natural number. -/
def leBytes : Nat → Nat → List Nat
  | 0, _ => []
  | k + 1, n => (n % 256) :: leBytes k (n / 256)

/-- Interpret a 64-byte block as sixteen little-endian 32-bit words. -/
def leWords : List Nat → List Nat
  | b0 :: b1 :: b2 :: b3 :: rest =>
      (b0 + 256 * b1 + 65536 * b2 + 16777216 * b3) :: leWords rest
  | _ => []

/-- One MD5 round applied to the state `(a, b, c, d)`. -/
def md5Step (M : List Nat) (st : Nat × Nat × Nat × Nat) (i : Nat) :
    Nat × Nat × Nat × Nat :=
  let a := st.1
  let b := st.2.1
  let c := st.2.2.1
  let d := st.2.2.2
  let fg : Nat × Nat :=
    if i < 16 then ((b &&& c) ||| (not32 b &&& d), i)
    else if i < 32 then ((d &&& b) ||| (not32 d &&& c), (5 * i + 1) % 16)
    else if i < 48 then (b ^^^ c ^^^ d, (3 * i + 5) % 16)
    else (c ^^^ (b ||| not32 d), (7 * i) % 16)
  let f := (fg.1 + a + md5K.getD i 0 + M.getD fg.2 0) % 4294967296
  (d, (b + rotl32 f (md5S.getD i 0)) % 4294967296, b, c)

/-- Process one 64-byte block, updating the MD5 state. -/
def md5Block (st : Nat × Nat × Nat × Nat) (block : List Nat) :
    Nat × Nat × Nat × Nat :=
  let M := leWords block
  let r := (List.range 64).foldl (md5Step M) st
  ((st.1 + r.1) % 4294967296, (st.2.1 + r.2.1) % 4294967296,
   (st.2.2.1 + r.2.2.1) % 4294967296, (st.2.2.2 + r.2.2.2) % 4294967296)

/-- Split a byte list into 64-byte blocks (the fuel, the list length, bounds
the number of blocks; each step drops 64 bytes, so the fuel never runs out). -/
def toBlocksAux : Nat → List Nat → List (List Nat)
  | 0, _ => []
  | _ + 1, [] => []
  | fuel + 1, x :: xs => ((x :: xs).take 64) :: toBlocksAux fuel ((x :: xs).drop 64)

/-- Split a byte list into 64-byte blocks. -/
def toBlocks (l : List Nat) : List (List Nat) :=
  toBlocksAux l.length l

/-- MD5 digest (16 bytes) of a byte list. -/
def md5Bytes (msg : List Nat) : List Nat :=
  let padZeros := (120 - (msg.length + 1) % 64) % 64
  let lenBytes := leBytes 8 ((8 * msg.length) % 18446744073709551616)
  let final := msg ++ 128 :: List.replicate padZeros 0 ++ lenBytes
  let st := (toBlocks final).foldl md5Block
    (0x67452301, 0xefcdab89, 0x98badcfe, 0x10325476)
  leBytes 4 st.1 ++ leBytes 4 st.2.1 ++ leBytes 4 st.2.2.1 ++ leBytes 4 st.2.2.2

/-- One lowercase hex digit. -/
def hexChar (n : Nat) : Char :=
  if n < 10 then Char.ofNat (48 + n) else Char.ofNat (87 + n)

/-- Lowercase hex string of an MD5 digest, as Go formats `md5.Sum` with `%x`. -/
def md5Hex (msg : List Nat) : String :=
  String.mk ((md5Bytes msg).foldr
    (fun byte acc => hexChar (byte / 16) :: hexChar (byte % 16) :: acc) [])

/-- `hashQuery` from the source: write the query into a builder, then the
`%v` rendering of each variadic argument in order, and take the MD5 of the
resulting string, hex-encoded. -/
def hashQuery (query : String) (args : List GoVal) : String :=
  md5Hex (strBytes (query ++ String.join (args.map goFmt)))

example : md5Hex (strBytes "") = "d41d8cd98f00b204e9800998ecf8427e" := by decide
example : md5Hex (strBytes "abc") = "900150983cd24fb0d6963f7d28e17f72" := by decide

/-! ## Data model: migrations, logs, the migrator -/

/-- `Migration` from the source: one named schema change. -/
structure Migration where
  name : String
  comment : String
  hash : String
  statement : String
  args : List GoVal

/-- `MigrationLog` from the source: the result of one migration attempt. -/
structure MigrationLog where
  name : String
  hash : String
  status : Nat
  details : String
deriving Repr, DecidableEq

/-- Status constant `SUCCESS` (iota 0). -/
def SUCCESS : Nat := 0

/-- Status constant `PREVIOUS` (iota 1). -/
def PREVIOUS : Nat := 1

/-- Status constant `ERROR` (iota 2). -/
def ERROR : Nat := 2

/-- Status constant `ERROR_HASH` (iota 3). -/
def ERROR_HASH : Nat := 3

/-- Go-map insertion on an association list: overwrite the value if the key
is present, append otherwise. -/
def mapInsert (l : List (String × String)) (k v : String) : List (String × String) :=
  if (l.lookup k).isSome then l.map (fun p => if p.1 = k then (k, v) else p)
  else l ++ [(k, v)]

/-- Build a Go map from rows by successive insertion (later rows overwrite
earlier ones, as in `prev[r.Name] = r.Hash`). -/
def buildMap (rows : List (String × String)) : List (String × String) :=
  rows.foldl (fun acc r => mapInsert acc r.1 r.2) []

/-- `Migrator` from the source.  The `db` handle and the backend pointer are
modelled separately (`DB` state below, and the registry model for binding);
the remaining fields are carried verbatim. -/
structure Migrator where
  tableName : String
  tableSchema : String
  migrations : List Migration
  log : List MigrationLog
  previous : List (String × String)
  safe : Bool
  repair : List (String × String)
  names : List String

/-- The field initialisation performed by `New` (backend binding aside). -/
def mkMigrator (tableName tableSchema : String) : Migrator :=
  { tableName := tableName, tableSchema := tableSchema, migrations := [],
    log := [], previous := [], safe := false, repair := [], names := [] }

/-- `Migrator.AddMigration` from the source: reject duplicate names,
otherwise record the name and append the migration, computing the checksum
at add time.  The Go call `hashQuery(statement, args)` passes the argument
slice as a single variadic element, which is kept here verbatim. -/
def Migrator.AddMigration (m : Migrator) (name comment statement : String)
    (args : List GoVal) : Except String Migrator :=
  if name ∈ m.names then
    .error ("migration " ++ name ++ " alraedy exists")
  else
    .ok { m with
      names := m.names ++ [name],
      migrations := m.migrations ++
        [{ name := name, comment := comment,
           hash := hashQuery statement [GoVal.slice args],
           statement := statement, args := args }] }

/-- `Migrator.RepairHash` from the source: each supplied name is marked in
the repair map with an empty value. -/
def Migrator.RepairHash (m : Migrator) (names : List String) : Migrator :=
  { m with repair := names.foldl (fun r n => mapInsert r n "") m.repair }

/-! ## Database state, error oracles, and the backend operations

The backend adapters (Postgres/MySQL/SQLite) implement the same five
operations with dialect-specific SQL; their common semantics over an
abstract database state is modelled here.  Fallibility of each database
call is driven by an `Env` of error oracles. -/

/-- The transactional data of the tracking table plus the user schema:
`applied` is the Applied ledger rows in insertion order, `execed` the
migration statements executed against the user schema. -/
structure DBData where
  applied : List (String × String)
  execed : List String
deriving Repr, DecidableEq

/-- The committed database: tracking-table existence plus committed data. -/
structure DB where
  tableExists : Bool
  data : DBData
deriving Repr, DecidableEq

/-- Error oracles: `none` means the call succeeds, `some e` makes it fail
with message `e`.  Statement execution is keyed by the statement text,
record insertion by the migration name. -/
structure Env where
  hasTableErr : Option String
  createErr : Option String
  queryPreviousErr : Option String
  execErr : String → Option String
  insertErr : String → Option String
  repairErr : Option String

/-- The environment in which every database call succeeds. -/
def benignEnv : Env :=
  { hasTableErr := none, createErr := none, queryPreviousErr := none,
    execErr := fun _ => none, insertErr := fun _ => none, repairErr := none }

/-- `nameTable` from the backends package: replace every `??` with the
table name. -/
def nameTable (query tableName : String) : String :=
  query.replace "??" tableName

/-- The Postgres `CREATE TABLE` DDL from the source (quote characters in the
SQL comment text elided). -/
def pgCreateDDL (table : String) : String :=
  nameTable ("CREATE TABLE ?? (\n" ++
    "\tid      SERIAL\n" ++
    "\t\tCONSTRAINT ??_pk PRIMARY KEY,\n" ++
    "\tname    VARCHAR(64)                NOT NULL,\n" ++
    "\thash    VARCHAR(32)                NOT NULL,\n" ++
    "\tdate    TIMESTAMP    DEFAULT NOW() NOT NULL,\n" ++
    "    comment VARCHAR(512)               NOT NULL\n" ++
    ");\n\tCOMMENT ON TABLE ?? IS list the schema changes;\n" ++
    "\tCREATE UNIQUE INDEX ??_name_uindex ON ?? (name);") table

/-- `Backend.HasMigrationTable`: report whether the tracking table exists;
fails only on a query error. -/
def backendHasMigrationTable (env : Env) (db : DB) : Except String Bool :=
  match env.hasTableErr with
  | some e => .error e
  | none => .ok db.tableExists

/-- `Backend.CreateMigrationTable`: execute the DDL directly on the
database handle (outside any transaction) and return the query used. -/
def backendCreateMigrationTable (env : Env) (tableName : String) (db : DB) :
    String × Except String Unit × DB :=
  let q := pgCreateDDL tableName
  match env.createErr with
  | some e => (q, .error e, db)
  | none => (q, .ok (), { db with tableExists := true })

/-- `Backend.QueryPrevious`: read the Applied ledger through the backend
database handle — the committed state, not the open transaction. -/
def backendQueryPrevious (env : Env) (db : DB) :
    Except String (List (String × String)) :=
  match env.queryPreviousErr with
  | some e => .error e
  | none => .ok (buildMap db.data.applied)

/-- `Backend.InsertRecord`: insert one Applied Record inside the supplied
transaction. -/
def backendInsertRecord (env : Env) (tx : DBData) (name hash comment : String) :
    Except String DBData :=
  match env.insertErr name with
  | some e => .error e
  | none => .ok { tx with applied := tx.applied ++ [(name, hash)] }

/-- `backends.RepairHashes`: for each scheduled pair, skip empty hashes,
otherwise execute the `UPDATE` inside the transaction; fail on the first
write error.  Returns the updated transaction data together with the list
of `UPDATE` writes actually executed. -/
def backendRepairHashes (env : Env) (tx : DBData) :
    List (String × String) → Except String (DBData × List (String × String))
  | [] => .ok (tx, [])
  | (n, h) :: rest =>
    if h = "" then backendRepairHashes env tx rest
    else
      match env.repairErr with
      | some e => .error e
      | none =>
        let tx2 : DBData :=
          { tx with applied :=
              tx.applied.map (fun p => if p.1 = n then (n, h) else p) }
        match backendRepairHashes env tx2 rest with
        | .error e => .error e
        | .ok (tx3, ws) => .ok (tx3, (n, h) :: ws)

/-! ## The execution engine -/

/-- `Migrator.hashIsValid` from the source: a name repaired in this run to
exactly the migration's current hash counts as valid; a name with no
previous record is valid; otherwise the stored hash must equal the current
hash. -/
def Migrator.hashIsValid (m : Migrator) (mig : Migration) : String × Bool :=
  let repairedOk :=
    match m.repair.lookup mig.name with
    | some repaired => repaired == mig.hash
    | none => false
  if repairedOk then (mig.hash, true)
  else
    match m.previous.lookup mig.name with
    | none => (mig.hash, true)
    | some previous => (previous, previous == mig.hash)

/-- `Migrator.repairHashes` from the source: skip the backend call when
nothing is scheduled; otherwise refresh each scheduled name that matches a
migration with that migration's current hash, then hand the map to the
backend. -/
def Migrator.repairHashes (m : Migrator) (env : Env) (tx : DBData) :
    Migrator × Except String (DBData × List (String × String)) :=
  if m.repair = [] then (m, .ok (tx, []))
  else
    let rep := m.migrations.foldl
      (fun r mig => if (r.lookup mig.name).isSome then mapInsert r mig.name mig.hash else r)
      m.repair
    ({ m with repair := rep }, backendRepairHashes env tx rep)

/-- `Migrator.executeMigration` from the source.  The deferred append of the
log entry is materialised on every return path. -/
def Migrator.executeMigration (m : Migrator) (env : Env) (tx : DBData)
    (mig : Migration) : Migrator × DBData × Option String :=
  let base : MigrationLog :=
    { name := mig.name, hash := mig.hash, status := SUCCESS,
      details := "ran migration successfully" }
  if (m.previous.lookup mig.name).isSome then
    let hv := m.hashIsValid mig
    if hv.2 then
      ({ m with log := m.log ++
          [{ base with status := PREVIOUS, details := "migration already run" }] },
       tx, none)
    else
      let d := "hash mismatch DB: " ++ hv.1 ++ " Migration: " ++ mig.hash
      if m.safe then
        ({ m with log := m.log ++ [{ base with status := ERROR_HASH, details := d }] },
         tx, some (mig.name ++ " " ++ d))
      else
        ({ m with log := m.log ++ [{ base with status := PREVIOUS, details := d }] },
         tx, none)
  else
    match env.execErr mig.statement with
    | some e =>
      ({ m with log := m.log ++ [{ base with status := ERROR, details := "failed: " ++ e }] },
       tx, some e)
    | none =>
      let tx1 : DBData := { tx with execed := tx.execed ++ [mig.statement] }
      match backendInsertRecord env tx1 mig.name mig.hash mig.comment with
      | .error e =>
        ({ m with log := m.log ++
            [{ base with status := ERROR, details := "record insert failed: " ++ e }] },
         tx1, some e)
      | .ok tx2 =>
        ({ m with log := m.log ++ [base] }, tx2, none)

/-- `Migrator.createMigrationTable` from the source: run the backend DDL on
the database handle, and log one synthetic entry (status `ERROR` when the
DDL failed). -/
def Migrator.createMigrationTable (m : Migrator) (env : Env) (db : DB) :
    Migrator × DB × Option String :=
  match backendCreateMigrationTable env m.tableName db with
  | (q, .ok _, db2) =>
    ({ m with log := m.log ++
        [{ name := "create_" ++ m.tableName ++ "_table", hash := hashQuery q [],
           status := SUCCESS,
           details := "created " ++ m.tableName ++ " table" }] },
     db2, none)
  | (q, .error e, db2) =>
    ({ m with log := m.log ++
        [{ name := "create_" ++ m.tableName ++ "_table", hash := hashQuery q [],
           status := ERROR, details := e }] },
     db2, some e)

/-- The `for _, mig := range m.migrations` loop of `Migrator.run`: execute
each migration in add order, wrapping the first failure. -/
def Migrator.runMigs (m : Migrator) (env : Env) (tx : DBData) :
    List Migration → Migrator × DBData × Option String
  | [] => (m, tx, none)
  | mig :: rest =>
    match m.executeMigration env tx mig with
    | (m2, tx2, some e) =>
      (m2, tx2, some ("run error on " ++ mig.name ++ ": " ++ e))
    | (m2, tx2, none) => m2.runMigs env tx2 rest

/-- The outcome of one run: the migrator and database afterwards, the
repair `UPDATE` writes the run sent to the database engine, and the
returned error if any. -/
structure RunOut where
  m : Migrator
  db : DB
  trace : List (String × String)
  err : Option String

/-- `Migrator.run` from the source.  Steps: check/create the tracking table
on the database handle (outside any transaction); open one transaction;
apply pending hash repairs inside it; fetch the Applied ledger through the
backend handle (the committed state); execute each migration in add order
inside the transaction; commit on success, roll back on any error. -/
def Migrator.run (m : Migrator) (env : Env) (db : DB) : RunOut :=
  match backendHasMigrationTable env db with
  | .error e =>
    { m := m, db := db, trace := [],
      err := some ("the migration table check failed: " ++ e) }
  | .ok tblExists =>
    let step1 : Migrator × DB × Option String :=
      if tblExists then (m, db, none) else m.createMigrationTable env db
    match step1 with
    | (m1, db1, some e) =>
      { m := m1, db := db1, trace := [],
        err := some ("create " ++ m.tableName ++ " table failed: " ++ e) }
    | (m1, db1, none) =>
      -- begin transaction: tx starts as a copy of the committed data
      let tx0 := db1.data
      match m1.repairHashes env tx0 with
      | (m2, .error e) =>
        -- rollback
        { m := m2, db := db1, trace := [],
          err := some ("repair hashes failed: " ++ e) }
      | (m2, .ok (tx1, ws)) =>
        match backendQueryPrevious env db1 with
        | .error e =>
          -- rollback
          { m := m2, db := db1, trace := ws,
            err := some ("get previous migrations failed: " ++ e) }
        | .ok prev =>
          let m3 := { m2 with previous := prev }
          match m3.runMigs env tx1 m3.migrations with
          | (m4, _, some e) =>
            -- rollback
            { m := m4, db := db1, trace := ws, err := some e }
          | (m4, tx2, none) =>
            -- commit
            { m := m4, db := { db1 with data := tx2 }, trace := ws, err := none }

/-- The synthetic log entry `Migrator.createMigrationTable` appends on
success (derived shorthand for statements below). -/
def createLogEntry (tableName : String) : MigrationLog :=
  { name := "create_" ++ tableName ++ "_table",
    hash := hashQuery (pgCreateDDL tableName) [],
    status := SUCCESS,
    details := "created " ++ tableName ++ " table" }

/-- `Migrator.Run`: safe mode. -/
def Migrator.Run (m : Migrator) (env : Env) (db : DB) : RunOut :=
  { m with safe := true }.run env db

/-- `Migrator.RunUnsafe`: unsafe mode. -/
def Migrator.RunUnsafe (m : Migrator) (env : Env) (db : DB) : RunOut :=
  { m with safe := false }.run env db

/-! ## Backend registry and binding

`registeredBackends` maps each dialect key to ONE live adapter instance;
`UseBackend` stores that shared instance in the migrator and calls
`Setup` on it, overwriting the instance's database handle, table name and
schema.  The pointer store is modelled as an association list from dialect
key to the adapter's `Setup` fields; a migrator holds the key of the
instance it points at. -/

/-- `defaultBackends` from the source: dialect key to driver names. -/
def defaultBackends : List (String × List String) :=
  [("postgres", ["postgres", "pgx", "pq-timeouts", "cloudsqlpostgres",
                 "nrpostgres", "cockroach"]),
   ("mysql", ["mysql", "nrmysql"]),
   ("sqlite", ["sqlite", "sqlite3", "nrsqlite3"]),
   ("oracle", ["oci8", "ora", "goracle", "godror"]),
   ("sqlserver", ["sqlserver"])]

/-- `backendMap` as populated by `init()`: driver name to dialect key.
Driver names are pairwise distinct across dialects, so the store order is
immaterial. -/
def backendMap : List (String × String) :=
  defaultBackends.foldl
    (fun acc p => p.2.foldl (fun a d => mapInsert a d p.1) acc) []

/-- `BackendType` from the source: unknown driver names map to the
sentinel `"unknown"`. -/
def BackendType (driverName : String) : String :=
  match backendMap.lookup driverName with
  | some t => t
  | none => "unknown"

/-- The `Setup` state of one shared adapter instance: database handle
(as an opaque identifier), tracking-table name, and schema. -/
structure BackendInst where
  db : Nat
  table : String
  tableSchema : String
deriving Repr, DecidableEq

/-- The process-wide `registeredBackends` map: dialect key to the shared
adapter instance it points at. -/
abbrev Registry := List (String × BackendInst)

/-- The default registrations (`mysql`, `postgres`, `sqlite`), each a fresh
zero-valued adapter instance. -/
def defaultRegistry : Registry :=
  [("mysql", { db := 0, table := "", tableSchema := "" }),
   ("postgres", { db := 0, table := "", tableSchema := "" }),
   ("sqlite", { db := 0, table := "", tableSchema := "" })]

/-- `RegisterBackend` from the source: fail if the key is taken, otherwise
add the binding. -/
def RegisterBackend (reg : Registry) (key : String) (b : BackendInst) :
    Except String Registry :=
  if (reg.lookup key).isSome then
    .error ("backend with key " ++ key ++ " already exists")
  else .ok (reg ++ [(key, b)])

/-- The identity and configuration of one `Migrator` as far as backend
binding is concerned: its own handle, table, schema, and the dialect key
of the shared adapter instance it is bound to (if any). -/
structure MigratorRef where
  db : Nat
  tableName : String
  tableSchema : String
  backendKey : Option String
deriving Repr, DecidableEq

/-- `Migrator.UseBackend` from the source: look the key up in the registry,
store the shared instance in the migrator, and call `Setup` on it — which
mutates the shared instance's handle, table and schema in place. -/
def MigratorRef.UseBackend (m : MigratorRef) (reg : Registry) (key : String) :
    Except String (MigratorRef × Registry) :=
  if (reg.lookup key).isSome then
    .ok ({ m with backendKey := some key },
         reg.map (fun p =>
           if p.1 = key then
             (key, { db := m.db, table := m.tableName, tableSchema := m.tableSchema })
           else p))
  else .error ("backend " ++ key ++ " is not a registered backend")

/-- `New` from the source: initialise the migrator, resolve the dialect of
the connection's driver name, and bind that backend; on failure the
migrator is returned with no backend bound, together with the error. -/
def New (reg : Registry) (db : Nat) (driverName tableName tableSchema : String) :
    MigratorRef × Registry × Option String :=
  let m : MigratorRef :=
    { db := db, tableName := tableName, tableSchema := tableSchema,
      backendKey := none }
  match m.UseBackend reg (BackendType driverName) with
  | .ok (m2, reg2) => (m2, reg2, none)
  | .error e => (m, reg, some e)

/-- The adapter configuration a migrator's backend operates on: the current
`Setup` state of the shared instance its key points at. -/
def activeBinding (reg : Registry) (m : MigratorRef) : Option BackendInst :=
  match m.backendKey with
  | some k => reg.lookup k
  | none => none

/-! ## Concrete instances used by the witnesses and counterexamples -/

/-- A fresh database: no tracking table, empty ledger. -/
def freshDB : DB := { tableExists := false, data := { applied := [], execed := [] } }

/-- Sample migration `m1`, checksum computed as at add time. -/
def sampleMig1 : Migration :=
  { name := "m1", comment := "c1", hash := hashQuery "S1" [GoVal.slice []],
    statement := "S1", args := [] }

/-- Sample migration `m2`. -/
def sampleMig2 : Migration :=
  { name := "m2", comment := "c2", hash := hashQuery "S2" [GoVal.slice []],
    statement := "S2", args := [] }

/-- A ledger holding `m1` and `m2`, as built by two `AddMigration` calls. -/
def sampleLedger2 : Migrator :=
  { mkMigrator "migrations" "public" with
    migrations := [sampleMig1, sampleMig2], names := ["m1", "m2"] }

/-- A ledger holding just `m1`. -/
def sampleLedger1 : Migrator :=
  { mkMigrator "migrations" "public" with
    migrations := [sampleMig1], names := ["m1"] }

/-- An environment in which executing the statement `S2` fails. -/
def envExecFailS2 : Env :=
  { benignEnv with execErr := fun s => if s = "S2" then some "boom" else none }

/-- The migration used in the repair scenarios. -/
def repairMig : Migration :=
  { name := "m1", comment := "c", hash := hashQuery "S" [GoVal.slice []],
    statement := "S", args := [] }

/-- A migrator holding `repairMig` with a repair scheduled for its name. -/
def repairMigrator : Migrator :=
  ({ mkMigrator "migrations" "public" with
     migrations := [repairMig], names := ["m1"] }).RepairHash ["m1"]

/-- A database whose ledger stores an outdated checksum for `m1`. -/
def repairDB : DB :=
  { tableExists := true, data := { applied := [("m1", "old")], execed := [] } }

/-- First run of the repair scenario. -/
def repairRunA : RunOut := repairMigrator.Run benignEnv repairDB

/-- Second run of the repair scenario, on the same migrator instance. -/
def repairRunB : RunOut := repairRunA.m.Run benignEnv repairRunA.db

/-- First run of the single-migration ledger against a fresh database. -/
def logRunA : RunOut := sampleLedger1.Run benignEnv freshDB

/-- Second run on the same migrator instance. -/
def logRunB : RunOut := logRunA.m.Run benignEnv logRunA.db

/-- First migrator construction: a Postgres-driver connection, table `t1`. -/
def regRun1 : MigratorRef × Registry × Option String :=
  New defaultRegistry 1 "postgres" "t1" "public"

/-- Second migrator construction: a pgx-driver connection (same dialect
key), table `t2`. -/
def regRun2 : MigratorRef × Registry × Option String :=
  New regRun1.2.1 2 "pgx" "t2" "public"

/-- A safe-mode migrator whose fetched ledger stores checksum `old` for
`m1` (the drift scenario of C2). -/
def driftMigrator : Migrator :=
  { mkMigrator "migrations" "public" with
    previous := [("m1", "old")], safe := true }

/-! ## Association-list lemmas -/

theorem lookup_cons {β : Type} (a : String) (b : β) (t : List (String × β)) (k : String) :
    ((a, b) :: t).lookup k = if k = a then some b else t.lookup k := by
  simp only [List.lookup]
  cases h : k == a
  · have hne : ¬ k = a := by
      intro he; subst he; simp at h
    rw [if_neg hne]
  · have he : k = a := eq_of_beq h
    rw [if_pos he]

theorem lookup_mem {β : Type} :
    ∀ (l : List (String × β)) (k : String) (v : β), l.lookup k = some v → (k, v) ∈ l := by
  intro l
  induction l with
  | nil => intro k v h; simp [List.lookup] at h
  | cons p t ih =>
    intro k v h
    obtain ⟨a, b⟩ := p
    rw [lookup_cons] at h
    by_cases hk : k = a
    · rw [if_pos hk] at h
      cases h
      subst hk
      exact List.mem_cons_self _ _
    · rw [if_neg hk] at h
      exact List.mem_cons_of_mem _ (ih k v h)

theorem lookup_append_left {β : Type} {l₁ : List (String × β)} (l₂ : List (String × β))
    {k : String} {v : β} (h : l₁.lookup k = some v) : (l₁ ++ l₂).lookup k = some v := by
  induction l₁ with
  | nil => simp [List.lookup] at h
  | cons p t ih =>
    obtain ⟨a, b⟩ := p
    rw [lookup_cons] at h
    rw [List.cons_append, lookup_cons]
    by_cases hk : k = a
    · rw [if_pos hk] at h; rw [if_pos hk]; exact h
    · rw [if_neg hk] at h; rw [if_neg hk]; exact ih h

theorem lookup_append_none {β : Type} {l₁ : List (String × β)} (l₂ : List (String × β))
    {k : String} (h : l₁.lookup k = none) : (l₁ ++ l₂).lookup k = l₂.lookup k := by
  induction l₁ with
  | nil => simp
  | cons p t ih =>
    obtain ⟨a, b⟩ := p
    rw [lookup_cons] at h
    rw [List.cons_append, lookup_cons]
    by_cases hk : k = a
    · rw [if_pos hk] at h; cases h
    · rw [if_neg hk] at h; rw [if_neg hk]; exact ih h

theorem lookup_map_overwrite {β : Type} (l : List (String × β)) (k : String) (v : β)
    (k' : String) (hne : k' ≠ k) :
    (l.map (fun p => if p.1 = k then (k, v) else p)).lookup k' = l.lookup k' := by
  induction l with
  | nil => simp
  | cons p t ih =>
    obtain ⟨a, b⟩ := p
    rw [List.map_cons]
    by_cases hk : a = k
    · have h1 : (if (a, b).1 = k then (k, v) else (a, b)) = (k, v) := by
        simp [hk]
      rw [h1, lookup_cons, lookup_cons, if_neg hne, if_neg (hk ▸ hne), ih]
    · have h1 : (if (a, b).1 = k then (k, v) else (a, b)) = (a, b) := by
        simp [hk]
      rw [h1, lookup_cons, lookup_cons, ih]

theorem lookup_map_overwrite_self {β : Type} (l : List (String × β)) (k : String) (v : β)
    (hp : (l.lookup k).isSome) :
    (l.map (fun p => if p.1 = k then (k, v) else p)).lookup k = some v := by
  induction l with
  | nil => simp [List.lookup] at hp
  | cons p t ih =>
    obtain ⟨a, b⟩ := p
    rw [lookup_cons] at hp
    rw [List.map_cons]
    by_cases hk : a = k
    · have h1 : (if (a, b).1 = k then (k, v) else (a, b)) = (k, v) := by
        simp [hk]
      rw [h1, lookup_cons, if_pos rfl]
    · have h1 : (if (a, b).1 = k then (k, v) else (a, b)) = (a, b) := by
        simp [hk]
      have hk2 : ¬ k = a := fun h => hk h.symm
      rw [if_neg hk2] at hp
      rw [h1, lookup_cons, if_neg hk2]
      exact ih hp

theorem mapInsert_lookup_self (l : List (String × String)) (k v : String) :
    (mapInsert l k v).lookup k = some v := by
  unfold mapInsert
  cases hl : l.lookup k with
  | some w =>
    rw [if_pos (by simp [hl])]
    exact lookup_map_overwrite_self l k v (by simp [hl])
  | none =>
    rw [if_neg (by simp [hl])]
    rw [lookup_append_none _ hl, lookup_cons, if_pos rfl]

theorem mapInsert_lookup_other (l : List (String × String)) (k v k' : String)
    (hne : k' ≠ k) : (mapInsert l k v).lookup k' = l.lookup k' := by
  unfold mapInsert
  cases hl : l.lookup k with
  | some w =>
    rw [if_pos (by simp [hl])]
    exact lookup_map_overwrite l k v k' hne
  | none =>
    rw [if_neg (by simp [hl])]
    cases hl2 : l.lookup k' with
    | some w => rw [lookup_append_left _ hl2]
    | none => rw [lookup_append_none _ hl2, lookup_cons, if_neg hne]; rfl

theorem mapInsert_isSome (l : List (String × String)) (k v k' : String) :
    ((mapInsert l k v).lookup k').isSome ↔ ((l.lookup k').isSome ∨ k' = k) := by
  by_cases hk : k' = k
  · subst hk; simp [mapInsert_lookup_self]
  · simp [mapInsert_lookup_other l k v k' hk, hk]

/-! ## Structural lemmas about the engine -/

theorem executeMigration_prev_valid (m : Migrator) (env : Env) (tx : DBData)
    (mig : Migration) (h1 : (m.previous.lookup mig.name).isSome = true)
    (h2 : (m.hashIsValid mig).2 = true) :
    m.executeMigration env tx mig =
      ({ m with log := m.log ++
          [{ name := mig.name, hash := mig.hash, status := PREVIOUS,
             details := "migration already run" }] }, tx, none) := by
  simp only [Migrator.executeMigration]
  rw [if_pos h1, if_pos h2]

theorem executeMigration_mismatch (m : Migrator) (env : Env) (tx : DBData)
    (mig : Migration) (h1 : (m.previous.lookup mig.name).isSome = true)
    (h2 : (m.hashIsValid mig).2 = false) :
    m.executeMigration env tx mig =
      (if m.safe then
        ({ m with log := m.log ++
            [{ name := mig.name, hash := mig.hash, status := ERROR_HASH,
               details := "hash mismatch DB: " ++ (m.hashIsValid mig).1 ++
                 " Migration: " ++ mig.hash }] }, tx,
         some (mig.name ++ " " ++ ("hash mismatch DB: " ++ (m.hashIsValid mig).1 ++
                 " Migration: " ++ mig.hash)))
      else
        ({ m with log := m.log ++
            [{ name := mig.name, hash := mig.hash, status := PREVIOUS,
               details := "hash mismatch DB: " ++ (m.hashIsValid mig).1 ++
                 " Migration: " ++ mig.hash }] }, tx, none)) := by
  simp only [Migrator.executeMigration]
  rw [if_pos h1, if_neg (by rw [h2]; exact Bool.false_ne_true)]

theorem executeMigration_new_execfail (m : Migrator) (env : Env) (tx : DBData)
    (mig : Migration) (h1 : m.previous.lookup mig.name = none)
    (h2 : env.execErr mig.statement = some e) :
    m.executeMigration env tx mig =
      ({ m with log := m.log ++
          [{ name := mig.name, hash := mig.hash, status := ERROR,
             details := "failed: " ++ e }] }, tx, some e) := by
  simp only [Migrator.executeMigration]
  rw [if_neg (by rw [h1]; exact Bool.false_ne_true), h2]

theorem executeMigration_new_insertfail (m : Migrator) (env : Env) (tx : DBData)
    (mig : Migration) (h1 : m.previous.lookup mig.name = none)
    (h2 : env.execErr mig.statement = none)
    (h3 : env.insertErr mig.name = some e) :
    m.executeMigration env tx mig =
      ({ m with log := m.log ++
          [{ name := mig.name, hash := mig.hash, status := ERROR,
             details := "record insert failed: " ++ e }] },
       { tx with execed := tx.execed ++ [mig.statement] }, some e) := by
  simp only [Migrator.executeMigration, backendInsertRecord]
  rw [if_neg (by rw [h1]; exact Bool.false_ne_true), h2, h3]

theorem executeMigration_new_success (m : Migrator) (env : Env) (tx : DBData)
    (mig : Migration) (h1 : m.previous.lookup mig.name = none)
    (h2 : env.execErr mig.statement = none)
    (h3 : env.insertErr mig.name = none) :
    m.executeMigration env tx mig =
      ({ m with log := m.log ++
          [{ name := mig.name, hash := mig.hash, status := SUCCESS,
             details := "ran migration successfully" }] },
       { applied := tx.applied ++ [(mig.name, mig.hash)],
         execed := tx.execed ++ [mig.statement] }, none) := by
  simp only [Migrator.executeMigration, backendInsertRecord]
  rw [if_neg (by rw [h1]; exact Bool.false_ne_true), h2, h3]

theorem executeMigration_shape (m : Migrator) (env : Env) (tx : DBData) (mig : Migration) :
    ∃ e : MigrationLog, e.name = mig.name ∧
      (m.executeMigration env tx mig).1 = { m with log := m.log ++ [e] } := by
  by_cases h1 : (m.previous.lookup mig.name).isSome
  · by_cases h2 : (m.hashIsValid mig).2
    · rw [executeMigration_prev_valid m env tx mig h1 h2]
      exact ⟨_, rfl, rfl⟩
    · rw [Bool.not_eq_true] at h2
      rw [executeMigration_mismatch m env tx mig h1 h2]
      by_cases hs : m.safe
      · rw [if_pos hs]; exact ⟨_, rfl, rfl⟩
      · rw [if_neg hs]; exact ⟨_, rfl, rfl⟩
  · replace h1 : m.previous.lookup mig.name = none := by
      cases hl : m.previous.lookup mig.name with
      | none => rfl
      | some w => rw [hl] at h1; simp at h1
    cases he : env.execErr mig.statement with
    | some e =>
      rw [executeMigration_new_execfail m env tx mig h1 he]
      exact ⟨_, rfl, rfl⟩
    | none =>
      cases hi : env.insertErr mig.name with
      | some e =>
        rw [executeMigration_new_insertfail m env tx mig h1 he hi]
        exact ⟨_, rfl, rfl⟩
      | none =>
        rw [executeMigration_new_success m env tx mig h1 he hi]
        exact ⟨_, rfl, rfl⟩

theorem executeMigration_fields (m : Migrator) (env : Env) (tx : DBData) (mig : Migration) :
    (m.executeMigration env tx mig).1.previous = m.previous ∧
    (m.executeMigration env tx mig).1.migrations = m.migrations ∧
    (m.executeMigration env tx mig).1.safe = m.safe ∧
    (m.executeMigration env tx mig).1.repair = m.repair ∧
    (m.executeMigration env tx mig).1.tableName = m.tableName := by
  obtain ⟨e, _, h⟩ := executeMigration_shape m env tx mig
  rw [h]
  exact ⟨rfl, rfl, rfl, rfl, rfl⟩

theorem hashIsValid_of_prev_match (m : Migrator) (mig : Migration)
    (h : m.previous.lookup mig.name = some mig.hash) :
    (m.hashIsValid mig).2 = true := by
  unfold Migrator.hashIsValid
  cases hr : m.repair.lookup mig.name with
  | none => simp [hr, h]
  | some repaired =>
    by_cases hrh : repaired == mig.hash
    · simp [hr, hrh]
    · simp only [Bool.not_eq_true] at hrh
      simp [hr, hrh, h]

theorem runMigs_fields (env : Env) : ∀ (migs : List Migration) (m : Migrator) (tx : DBData),
    (m.runMigs env tx migs).1.previous = m.previous ∧
    (m.runMigs env tx migs).1.migrations = m.migrations ∧
    (m.runMigs env tx migs).1.safe = m.safe ∧
    (m.runMigs env tx migs).1.repair = m.repair ∧
    (m.runMigs env tx migs).1.tableName = m.tableName := by
  intro migs
  induction migs with
  | nil => intro m tx; exact ⟨rfl, rfl, rfl, rfl, rfl⟩
  | cons mig rest ih =>
    intro m tx
    have hf := executeMigration_fields m env tx mig
    simp only [Migrator.runMigs]
    rcases hr : m.executeMigration env tx mig with ⟨m2, tx2, err⟩
    rw [hr] at hf
    cases err with
    | some e => simpa using hf
    | none =>
      have h2 := ih m2 tx2
      simp only [] at hf h2 ⊢
      obtain ⟨a1, a2, a3, a4, a5⟩ := hf
      obtain ⟨b1, b2, b3, b4, b5⟩ := h2
      exact ⟨b1.trans a1, b2.trans a2, b3.trans a3, b4.trans a4, b5.trans a5⟩

theorem runMigs_err (env : Env) : ∀ (migs : List Migration) (m : Migrator) (tx : DBData),
    (∃ mig ∈ migs, m.previous.lookup mig.name = none ∧
      (env.execErr mig.statement ≠ none ∨ env.insertErr mig.name ≠ none)) →
    (m.runMigs env tx migs).2.2.isSome := by
  intro migs
  induction migs with
  | nil => intro m tx h; simp at h
  | cons mig rest ih =>
    intro m tx h
    obtain ⟨w, hw, hnone, hfail⟩ := h
    rw [List.mem_cons] at hw
    simp only [Migrator.runMigs]
    cases hw with
    | inl hw =>
      subst hw
      cases he : env.execErr w.statement with
      | some e =>
        rw [executeMigration_new_execfail m env tx w hnone he]
        rfl
      | none =>
        have hif : env.insertErr w.name ≠ none := by
          cases hfail with
          | inl hx => exact absurd he hx
          | inr hx => exact hx
        cases hi : env.insertErr w.name with
        | none => exact absurd hi hif
        | some e =>
          rw [executeMigration_new_insertfail m env tx w hnone he hi]
          rfl
    | inr hw =>
      have hf := executeMigration_fields m env tx mig
      rcases hr : m.executeMigration env tx mig with ⟨m2, tx2, err⟩
      rw [hr] at hf
      cases err with
      | some e => rfl
      | none =>
        apply ih m2 tx2
        exact ⟨w, hw, hf.1 ▸ hnone, hfail⟩

theorem runMigs_all_new (env : Env) (hx : ∀ s, env.execErr s = none)
    (hi : ∀ n, env.insertErr n = none) :
    ∀ (migs : List Migration) (m : Migrator) (tx : DBData),
    (∀ mig ∈ migs, m.previous.lookup mig.name = none) →
    m.runMigs env tx migs =
      ({ m with log := m.log ++ migs.map (fun g =>
          { name := g.name, hash := g.hash, status := SUCCESS,
            details := "ran migration successfully" }) },
       { applied := tx.applied ++ migs.map (fun g => (g.name, g.hash)),
         execed := tx.execed ++ migs.map (fun g => g.statement) }, none) := by
  intro migs
  induction migs with
  | nil => intro m tx h; simp [Migrator.runMigs]
  | cons mig rest ih =>
    intro m tx h
    have hstep : m.runMigs env tx (mig :: rest) =
        Migrator.runMigs { m with log := m.log ++
          [{ name := mig.name, hash := mig.hash, status := SUCCESS,
             details := "ran migration successfully" }] } env
          { applied := tx.applied ++ [(mig.name, mig.hash)],
            execed := tx.execed ++ [mig.statement] } rest := by
      simp only [Migrator.runMigs]
      rw [executeMigration_new_success m env tx mig (h mig (List.mem_cons_self _ _))
        (hx _) (hi _)]
    rw [hstep, ih { m with log := m.log ++
          [{ name := mig.name, hash := mig.hash, status := SUCCESS,
             details := "ran migration successfully" }] }
        { applied := tx.applied ++ [(mig.name, mig.hash)],
          execed := tx.execed ++ [mig.statement] }
        (fun g hg => h g (List.mem_cons_of_mem _ hg))]
    simp [List.append_assoc]

theorem runMigs_all_prev (env : Env) :
    ∀ (migs : List Migration) (m : Migrator) (tx : DBData),
    (∀ mig ∈ migs, m.previous.lookup mig.name = some mig.hash) →
    m.runMigs env tx migs =
      ({ m with log := m.log ++ migs.map (fun g =>
          { name := g.name, hash := g.hash, status := PREVIOUS,
            details := "migration already run" }) }, tx, none) := by
  intro migs
  induction migs with
  | nil => intro m tx h; simp [Migrator.runMigs]
  | cons mig rest ih =>
    intro m tx h
    have hp := h mig (List.mem_cons_self _ _)
    have hstep : m.runMigs env tx (mig :: rest) =
        Migrator.runMigs { m with log := m.log ++
          [{ name := mig.name, hash := mig.hash, status := PREVIOUS,
             details := "migration already run" }] } env tx rest := by
      simp only [Migrator.runMigs]
      rw [executeMigration_prev_valid m env tx mig (by simp [hp])
        (hashIsValid_of_prev_match m mig hp)]
    rw [hstep, ih { m with log := m.log ++
          [{ name := mig.name, hash := mig.hash, status := PREVIOUS,
             details := "migration already run" }] } tx
        (fun g hg => h g (List.mem_cons_of_mem _ hg))]
    simp [List.append_assoc]

theorem runMigs_log_names (env : Env) : ∀ (migs : List Migration) (m : Migrator) (tx : DBData),
    ∃ k, k ≤ migs.length ∧
      ((m.runMigs env tx migs).1.log.map (fun l => l.name) =
        m.log.map (fun l => l.name) ++ (migs.map (fun g => g.name)).take k) ∧
      ((m.runMigs env tx migs).2.2 = none → k = migs.length) := by
  intro migs
  induction migs with
  | nil => intro m tx; exact ⟨0, by simp, by simp [Migrator.runMigs], fun _ => rfl⟩
  | cons mig rest ih =>
    intro m tx
    obtain ⟨e, hen, hsh⟩ := executeMigration_shape m env tx mig
    simp only [Migrator.runMigs]
    rcases hr : m.executeMigration env tx mig with ⟨m2, tx2, err⟩
    rw [hr] at hsh
    have hm2log : m2.log.map (fun l => l.name) =
        m.log.map (fun l => l.name) ++ [mig.name] := by
      rw [show m2 = (m2, tx2, err).1 from rfl, hsh]
      simp [hen]
    cases err with
    | some e2 =>
      refine ⟨1, by simp, ?_, by simp⟩
      simpa using hm2log
    | none =>
      obtain ⟨k, hk, hlog, herr⟩ := ih m2 tx2
      refine ⟨k + 1, by simpa using Nat.succ_le_succ hk, ?_, ?_⟩
      · rw [hlog, hm2log]
        simp [List.take_succ_cons, List.append_assoc]
      · intro hnone
        rw [herr hnone]
        simp

/-! ## Repair and ledger-fetch lemmas -/

theorem backendRepairHashes_ok (env : Env) (h : env.repairErr = none) :
    ∀ (hs : List (String × String)) (tx : DBData),
    ∃ tx2 ws, backendRepairHashes env tx hs = .ok (tx2, ws) := by
  intro hs
  induction hs with
  | nil => intro tx; exact ⟨tx, [], rfl⟩
  | cons p rest ih =>
    intro tx
    obtain ⟨n, hh⟩ := p
    by_cases hempty : hh = ""
    · obtain ⟨tx2, ws, heq⟩ := ih tx
      exact ⟨tx2, ws, by simp only [backendRepairHashes, if_pos hempty]; exact heq⟩
    · obtain ⟨tx2, ws, heq⟩ := ih
        { tx with applied := tx.applied.map (fun p => if p.1 = n then (n, hh) else p) }
      refine ⟨tx2, (n, hh) :: ws, ?_⟩
      simp only [backendRepairHashes, if_neg hempty, h]
      rw [heq]

theorem backendRepairHashes_mem (env : Env) :
    ∀ (hs : List (String × String)) (tx tx2 : DBData) (ws : List (String × String))
      (n hh : String),
    backendRepairHashes env tx hs = .ok (tx2, ws) → (n, hh) ∈ hs → hh ≠ "" →
    (n, hh) ∈ ws := by
  intro hs
  induction hs with
  | nil => intro tx tx2 ws n hh heq hmem; simp at hmem
  | cons p rest ih =>
    intro tx tx2 ws n hh heq hmem hne
    obtain ⟨a, b⟩ := p
    rw [List.mem_cons] at hmem
    by_cases hempty : b = ""
    · simp only [backendRepairHashes, if_pos hempty] at heq
      cases hmem with
      | inl hx => cases hx; exact absurd hempty hne
      | inr hx => exact ih tx tx2 ws n hh heq hx hne
    · simp only [backendRepairHashes, if_neg hempty] at heq
      cases hrep : env.repairErr with
      | some e => rw [hrep] at heq; cases heq
      | none =>
        rw [hrep] at heq
        cases hinner : backendRepairHashes env
            { tx with applied := tx.applied.map (fun p => if p.1 = a then (a, b) else p) }
            rest with
        | error e2 => rw [hinner] at heq; cases heq
        | ok pr =>
          obtain ⟨tx3, ws3⟩ := pr
          rw [hinner] at heq
          cases heq
          cases hmem with
          | inl hx => cases hx; exact List.mem_cons_self _ _
          | inr hx =>
            exact List.mem_cons_of_mem _ (ih _ _ _ n hh hinner hx hne)

theorem repairFold_keys : ∀ (migs : List Migration) (r : List (String × String)) (k : String),
    ((migs.foldl (fun r mig =>
        if (r.lookup mig.name).isSome then mapInsert r mig.name mig.hash else r) r).lookup
      k).isSome = (r.lookup k).isSome := by
  intro migs
  induction migs with
  | nil => intro r k; rfl
  | cons mig rest ih =>
    intro r k
    simp only [List.foldl_cons]
    by_cases hg : (r.lookup mig.name).isSome
    · rw [if_pos hg, ih]
      by_cases hk : k = mig.name
      · subst hk
        simp [mapInsert_lookup_self, hg]
      · rw [mapInsert_lookup_other _ _ _ _ hk]
    · rw [if_neg hg, ih]

theorem repairFold_untouched :
    ∀ (migs : List Migration) (r : List (String × String)) (k : String),
    k ∉ migs.map (fun g => g.name) →
    (migs.foldl (fun r mig =>
        if (r.lookup mig.name).isSome then mapInsert r mig.name mig.hash else r) r).lookup k
      = r.lookup k := by
  intro migs
  induction migs with
  | nil => intro r k h; rfl
  | cons mig rest ih =>
    intro r k h
    rw [List.map_cons, List.mem_cons] at h
    push_neg at h
    simp only [List.foldl_cons]
    by_cases hg : (r.lookup mig.name).isSome
    · rw [if_pos hg, ih _ _ h.2, mapInsert_lookup_other _ _ _ _ h.1]
    · rw [if_neg hg, ih _ _ h.2]

theorem repairFold_lookup :
    ∀ (migs : List Migration) (r : List (String × String)) (mig : Migration),
    mig ∈ migs → (migs.map (fun g => g.name)).Nodup →
    (r.lookup mig.name).isSome →
    (migs.foldl (fun r mig =>
        if (r.lookup mig.name).isSome then mapInsert r mig.name mig.hash else r) r).lookup
      mig.name = some mig.hash := by
  intro migs
  induction migs with
  | nil => intro r mig h; simp at h
  | cons g rest ih =>
    intro r mig hmem hnd hsome
    rw [List.map_cons, List.nodup_cons] at hnd
    rw [List.mem_cons] at hmem
    simp only [List.foldl_cons]
    cases hmem with
    | inl hx =>
      subst hx
      rw [if_pos hsome]
      rw [repairFold_untouched rest _ _ hnd.1]
      exact mapInsert_lookup_self _ _ _
    | inr hx =>
      have hname : mig.name ≠ g.name := by
        intro he
        exact hnd.1 (he ▸ List.mem_map_of_mem (fun g => g.name) hx)
      by_cases hg : (r.lookup g.name).isSome
      · rw [if_pos hg]
        refine ih _ mig hx hnd.2 ?_
        rw [mapInsert_lookup_other _ _ _ _ hname]
        exact hsome
      · rw [if_neg hg]
        exact ih _ mig hx hnd.2 hsome

theorem repairHashes_shape (m : Migrator) (env : Env) (tx : DBData)
    (h : env.repairErr = none) :
    ∃ m2 tx2 ws, m.repairHashes env tx = (m2, .ok (tx2, ws)) ∧
      m2.previous = m.previous ∧ m2.migrations = m.migrations ∧
      m2.safe = m.safe ∧ m2.log = m.log ∧ m2.tableName = m.tableName ∧
      m2.names = m.names ∧
      (∀ k, ((m2.repair.lookup k).isSome) = ((m.repair.lookup k).isSome)) ∧
      (m.repair = [] → tx2 = tx ∧ ws = [] ∧ m2 = m) ∧
      (∀ mig, mig ∈ m.migrations → (m.migrations.map (fun g => g.name)).Nodup →
        ((m.repair.lookup mig.name).isSome) →
        m2.repair.lookup mig.name = some mig.hash ∧
        (mig.hash ≠ "" → (mig.name, mig.hash) ∈ ws)) := by
  by_cases hrep : m.repair = []
  · refine ⟨m, tx, [], ?_, rfl, rfl, rfl, rfl, rfl, rfl, fun k => rfl,
      fun _ => ⟨rfl, rfl, rfl⟩, ?_⟩
    · simp only [Migrator.repairHashes, if_pos hrep]
    · intro mig hm hnd hsome
      rw [hrep] at hsome
      simp [List.lookup] at hsome
  · obtain ⟨tx2, ws, heq⟩ := backendRepairHashes_ok env h
      (m.migrations.foldl (fun r mig =>
        if (r.lookup mig.name).isSome then mapInsert r mig.name mig.hash else r) m.repair) tx
    refine ⟨{ m with repair := m.migrations.foldl (fun r mig =>
        if (r.lookup mig.name).isSome then mapInsert r mig.name mig.hash else r) m.repair },
      tx2, ws, ?_, rfl, rfl, rfl, rfl, rfl, rfl, ?_, fun hx => absurd hx hrep, ?_⟩
    · simp only [Migrator.repairHashes, if_neg hrep]
      rw [heq]
    · intro k
      exact repairFold_keys m.migrations m.repair k
    · intro mig hm hnd hsome
      have hlk := repairFold_lookup m.migrations m.repair mig hm hnd hsome
      refine ⟨hlk, fun hne => ?_⟩
      exact backendRepairHashes_mem env _ tx tx2 ws mig.name mig.hash heq
        (lookup_mem _ _ _ hlk) hne

theorem createMigrationTable_ok (m : Migrator) (env : Env) (db : DB)
    (h : env.createErr = none) :
    m.createMigrationTable env db =
      ({ m with log := m.log ++ [createLogEntry m.tableName] },
       { db with tableExists := true }, none) := by
  simp only [Migrator.createMigrationTable, backendCreateMigrationTable, h]
  rfl

/-! ## Ledger-fetch lemmas -/

theorem foldl_mapInsert_fresh :
    ∀ (rows acc : List (String × String)),
    (∀ p ∈ rows, acc.lookup p.1 = none) → (rows.map Prod.fst).Nodup →
    rows.foldl (fun a r => mapInsert a r.1 r.2) acc = acc ++ rows := by
  intro rows
  induction rows with
  | nil => intro acc h hnd; simp
  | cons r rest ih =>
    intro acc h hnd
    rw [List.map_cons, List.nodup_cons] at hnd
    have hr : acc.lookup r.1 = none := h r (List.mem_cons_self _ _)
    have hstep : mapInsert acc r.1 r.2 = acc ++ [r] := by
      unfold mapInsert
      rw [if_neg (by simp [hr])]
    simp only [List.foldl_cons, hstep]
    rw [ih (acc ++ [r]) ?_ hnd.2]
    · simp
    · intro p hp
      rw [lookup_append_none _ (h p (List.mem_cons_of_mem _ hp)), lookup_cons]
      rw [if_neg]
      · rfl
      · intro he
        exact hnd.1 (he ▸ List.mem_map_of_mem Prod.fst hp)

theorem buildMap_nodup (rows : List (String × String))
    (hnd : (rows.map Prod.fst).Nodup) : buildMap rows = rows := by
  unfold buildMap
  rw [foldl_mapInsert_fresh rows [] (fun p _ => rfl) hnd]
  rfl

theorem lookup_pairs_of_mem :
    ∀ (migs : List Migration) (mig : Migration),
    mig ∈ migs → (migs.map (fun g => g.name)).Nodup →
    (migs.map (fun g => (g.name, g.hash))).lookup mig.name = some mig.hash := by
  intro migs
  induction migs with
  | nil => intro mig h; simp at h
  | cons g rest ih =>
    intro mig hmem hnd
    rw [List.map_cons, List.nodup_cons] at hnd
    rw [List.mem_cons] at hmem
    rw [List.map_cons, lookup_cons]
    cases hmem with
    | inl hx => subst hx; rw [if_pos rfl]
    | inr hx =>
      have hname : mig.name ≠ g.name := by
        intro he
        exact hnd.1 (he ▸ List.mem_map_of_mem (fun g => g.name) hx)
      rw [if_neg hname]
      exact ih mig hx hnd.2

/-! ## The master plumbing lemma for `run` -/

theorem run_plumb (m : Migrator) (env : Env) (db : DB)
    (h1 : env.hasTableErr = none) (h2 : env.createErr = none)
    (h3 : env.repairErr = none) (h4 : env.queryPreviousErr = none) :
    ∃ (db1 : DB) (m3 : Migrator) (tx1 : DBData) (ws : List (String × String)),
      db1.data = db.data ∧
      db1.tableExists = true ∧
      m3.previous = buildMap db.data.applied ∧
      m3.migrations = m.migrations ∧
      m3.safe = m.safe ∧
      m3.names = m.names ∧
      m3.tableName = m.tableName ∧
      (∀ k, ((m3.repair.lookup k).isSome) = ((m.repair.lookup k).isSome)) ∧
      m3.log = m.log ++ (if db.tableExists then [] else [createLogEntry m.tableName]) ∧
      (m.repair = [] → tx1 = db.data ∧ ws = [] ∧ m3.repair = m.repair) ∧
      (∀ mig, mig ∈ m.migrations → (m.migrations.map (fun g => g.name)).Nodup →
        ((m.repair.lookup mig.name).isSome) →
        m3.repair.lookup mig.name = some mig.hash ∧
        (mig.hash ≠ "" → (mig.name, mig.hash) ∈ ws)) ∧
      m.run env db =
        (match m3.runMigs env tx1 m3.migrations with
         | (m4, _, some e) => ⟨m4, db1, ws, some e⟩
         | (m4, tx2, none) => ⟨m4, { db1 with data := tx2 }, ws, none⟩) := by
  -- step 1: the table check and creation
  have hcheck : backendHasMigrationTable env db = .ok db.tableExists := by
    simp [backendHasMigrationTable, h1]
  obtain ⟨m1, db1, hm1log, hm1rest, hdb1, hstep1⟩ :
      ∃ (m1 : Migrator) (db1 : DB),
        (m1.log = m.log ++ (if db.tableExists then [] else [createLogEntry m.tableName])) ∧
        (m1.previous = m.previous ∧ m1.migrations = m.migrations ∧ m1.safe = m.safe ∧
         m1.names = m.names ∧ m1.tableName = m.tableName ∧ m1.repair = m.repair) ∧
        (db1.data = db.data ∧ db1.tableExists = true) ∧
        m.run env db =
          (let tx0 := db1.data
           match m1.repairHashes env tx0 with
           | (m2, .error e) =>
             { m := m2, db := db1, trace := [],
               err := some ("repair hashes failed: " ++ e) }
           | (m2, .ok (tx1, ws)) =>
             match backendQueryPrevious env db1 with
             | .error e =>
               { m := m2, db := db1, trace := ws,
                 err := some ("get previous migrations failed: " ++ e) }
             | .ok prev =>
               let m3 := { m2 with previous := prev }
               match m3.runMigs env tx1 m3.migrations with
               | (m4, _, some e) => ⟨m4, db1, ws, some e⟩
               | (m4, tx2, none) => ⟨m4, { db1 with data := tx2 }, ws, none⟩) := by
    by_cases ht : db.tableExists
    · refine ⟨m, db, by simp [ht], ⟨rfl, rfl, rfl, rfl, rfl, rfl⟩, ⟨rfl, ht⟩, ?_⟩
      simp only [Migrator.run, hcheck, ht, if_pos]
    · refine ⟨{ m with log := m.log ++ [createLogEntry m.tableName] },
        { db with tableExists := true }, by simp [ht], ⟨rfl, rfl, rfl, rfl, rfl, rfl⟩,
        ⟨rfl, rfl⟩, ?_⟩
      simp only [Migrator.run, hcheck]
      rw [if_neg ht, createMigrationTable_ok m env db h2]
  -- step 2: repairs
  obtain ⟨m2, tx1, ws, hrh, hprev2, hmigs2, hsafe2, hlog2, htn2, hnames2, hkeys2,
    hempty2, hmem2⟩ := repairHashes_shape m1 env db1.data h3
  -- step 3: fetch
  have hqp : backendQueryPrevious env db1 = .ok (buildMap db.data.applied) := by
    simp [backendQueryPrevious, h4, hdb1.1]
  refine ⟨db1, { m2 with previous := buildMap db.data.applied }, tx1, ws,
    hdb1.1, hdb1.2, rfl, by rw [hmigs2, hm1rest.2.1], by rw [hsafe2, hm1rest.2.2.1],
    by rw [hnames2, hm1rest.2.2.2.1],
    by rw [htn2, hm1rest.2.2.2.2.1],
    ?_, by rw [hlog2, hm1log], ?_, ?_, ?_⟩
  · intro k
    show ((m2.repair.lookup k).isSome) = _
    rw [hkeys2 k, hm1rest.2.2.2.2.2]
  · intro hrepnil
    have h0 := hempty2 (by rw [hm1rest.2.2.2.2.2]; exact hrepnil)
    refine ⟨by rw [h0.1, hdb1.1], h0.2.1, ?_⟩
    show m2.repair = m.repair
    rw [h0.2.2, hm1rest.2.2.2.2.2]
  · intro mig hmem hnd hsome
    have := hmem2 mig (by rw [hm1rest.2.1]; exact hmem)
      (by rw [hm1rest.2.1]; exact hnd)
      (by rw [hm1rest.2.2.2.2.2]; exact hsome)
    exact this
  · rw [hstep1]
    simp only [hrh, hqp]

theorem repairHashes_fields (m : Migrator) (env : Env) (tx : DBData) :
    (m.repairHashes env tx).1.log = m.log ∧
    (m.repairHashes env tx).1.previous = m.previous ∧
    (m.repairHashes env tx).1.migrations = m.migrations ∧
    (m.repairHashes env tx).1.safe = m.safe ∧
    (m.repairHashes env tx).1.tableName = m.tableName := by
  unfold Migrator.repairHashes
  by_cases h : m.repair = []
  · rw [if_pos h]; exact ⟨rfl, rfl, rfl, rfl, rfl⟩
  · rw [if_neg h]; exact ⟨rfl, rfl, rfl, rfl, rfl⟩

theorem createMigrationTable_err (m : Migrator) (env : Env) (db : DB) (e : String)
    (h : env.createErr = some e) :
    m.createMigrationTable env db =
      ({ m with log := m.log ++
          [{ name := "create_" ++ m.tableName ++ "_table",
             hash := hashQuery (pgCreateDDL m.tableName) [],
             status := ERROR, details := e }] }, db, some e) := by
  simp only [Migrator.createMigrationTable, backendCreateMigrationTable, h]

/-! ## Claims -/

/-- C1: in any run whose pre-loop database calls succeed but in which some
migration's statement execution or record insert fails, `run` returns an
error, and afterwards the committed database data — in particular the
Applied ledger — is exactly what it was before the run (the transaction is
rolled back, including migrations earlier in the run that executed without
error), while the tracking table, created in step 1 when missing, exists
afterwards (its creation is not rolled back). -/
theorem C1_atomic_rollback (env : Env) (m : Migrator) (db : DB)
    (h1 : env.hasTableErr = none) (h2 : env.createErr = none)
    (h3 : env.repairErr = none) (h4 : env.queryPreviousErr = none)
    (hfail : ∃ mig ∈ m.migrations, (buildMap db.data.applied).lookup mig.name = none ∧
      (env.execErr mig.statement ≠ none ∨ env.insertErr mig.name ≠ none)) :
    (m.run env db).err.isSome ∧
    (m.run env db).db.data = db.data ∧
    (m.run env db).db.tableExists = true := by
  obtain ⟨db1, m3, tx1, ws, hdb1data, hdb1te, hprev, hmigs, _, _, _, _, _, _, _, hrun⟩ :=
    run_plumb m env db h1 h2 h3 h4
  have herr : (m3.runMigs env tx1 m3.migrations).2.2.isSome := by
    apply runMigs_err env m3.migrations m3 tx1
    obtain ⟨mig, hmem, hnone, hor⟩ := hfail
    refine ⟨mig, by rw [hmigs]; exact hmem, by rw [hprev]; exact hnone, hor⟩
  rcases hr : m3.runMigs env tx1 m3.migrations with ⟨m4, tx2, err⟩
  rw [hr] at herr
  cases err with
  | none => simp at herr
  | some e =>
    rw [hrun, hr]
    exact ⟨rfl, hdb1data, hdb1te⟩

/-- Witness for C1 at a concrete input: a two-migration ledger against a
fresh database, with the second statement failing. -/
theorem C1_atomic_rollback_witness :
    (∃ mig ∈ sampleLedger2.migrations,
      (buildMap freshDB.data.applied).lookup mig.name = none ∧
      (envExecFailS2.execErr mig.statement ≠ none ∨
       envExecFailS2.insertErr mig.name ≠ none)) ∧
    ((sampleLedger2.run envExecFailS2 freshDB).err.isSome ∧
     (sampleLedger2.run envExecFailS2 freshDB).db.data = freshDB.data ∧
     (sampleLedger2.run envExecFailS2 freshDB).db.tableExists = true) :=
  ⟨by decide,
   C1_atomic_rollback envExecFailS2 sampleLedger2 freshDB rfl rfl rfl rfl (by decide)⟩

/-- C2: a migration whose name has a previous Applied record with a stored
checksum differing from its current checksum, and which was not repaired to
the current checksum in this run, is processed as follows: in safe mode the
loop aborts immediately at that migration with a checksum-mismatch error and
an `ERROR_HASH` log entry; in unsafe mode the loop logs a `PREVIOUS` entry
carrying the mismatch detail, leaves the transaction data (and hence the
stored checksum) untouched, contributes no error, and continues with the
remaining migrations. -/
theorem C2_drift_modes (env : Env) (m : Migrator) (tx : DBData) (mig : Migration)
    (rest : List Migration) (stored : String)
    (hprev : m.previous.lookup mig.name = some stored)
    (hne : stored ≠ mig.hash)
    (hnorep : m.repair.lookup mig.name ≠ some mig.hash) :
    (m.safe = true →
      m.runMigs env tx (mig :: rest) =
        ({ m with log := m.log ++
            [{ name := mig.name, hash := mig.hash, status := ERROR_HASH,
               details := "hash mismatch DB: " ++ stored ++ " Migration: " ++ mig.hash }] },
         tx,
         some ("run error on " ++ mig.name ++ ": " ++
           (mig.name ++ " " ++
             ("hash mismatch DB: " ++ stored ++ " Migration: " ++ mig.hash))))) ∧
    (m.safe = false →
      m.runMigs env tx (mig :: rest) =
        Migrator.runMigs { m with log := m.log ++
            [{ name := mig.name, hash := mig.hash, status := PREVIOUS,
               details := "hash mismatch DB: " ++ stored ++ " Migration: " ++ mig.hash }] }
          env tx rest) := by
  have hhv : m.hashIsValid mig = (stored, false) := by
    unfold Migrator.hashIsValid
    have hrep : (match m.repair.lookup mig.name with
        | some repaired => repaired == mig.hash
        | none => false) = false := by
      cases hr : m.repair.lookup mig.name with
      | none => rfl
      | some r =>
        have : r ≠ mig.hash := fun he => hnorep (he ▸ hr)
        simp [this]
    rw [hrep]
    simp only [if_false, Bool.false_eq_true, hprev]
    simp [hne]
  have h1 : (m.previous.lookup mig.name).isSome = true := by simp [hprev]
  have h2 : (m.hashIsValid mig).2 = false := by rw [hhv]
  have h1v : (m.hashIsValid mig).1 = stored := by rw [hhv]
  constructor
  · intro hs
    have hstep := executeMigration_mismatch m env tx mig h1 h2
    rw [if_pos hs, h1v] at hstep
    simp only [Migrator.runMigs]
    rw [hstep]
  · intro hs
    have hstep := executeMigration_mismatch m env tx mig h1 h2
    rw [if_neg (by rw [hs]; exact Bool.false_ne_true), h1v] at hstep
    simp only [Migrator.runMigs]
    rw [hstep]

/-- Witness for C2 at a concrete input: safe-mode migrator with stored
checksum `old` differing from the current checksum of `m1`. -/
theorem C2_drift_modes_witness :
    (driftMigrator.previous.lookup sampleMig1.name = some "old" ∧
     "old" ≠ sampleMig1.hash ∧
     driftMigrator.repair.lookup sampleMig1.name ≠ some sampleMig1.hash) ∧
    ((driftMigrator.safe = true →
      driftMigrator.runMigs benignEnv freshDB.data [sampleMig1] =
        ({ driftMigrator with log := driftMigrator.log ++
            [{ name := sampleMig1.name, hash := sampleMig1.hash, status := ERROR_HASH,
               details := "hash mismatch DB: " ++ "old" ++ " Migration: " ++ sampleMig1.hash }] },
         freshDB.data,
         some ("run error on " ++ sampleMig1.name ++ ": " ++
           (sampleMig1.name ++ " " ++
             ("hash mismatch DB: " ++ "old" ++ " Migration: " ++ sampleMig1.hash))))) ∧
     (driftMigrator.safe = false →
      driftMigrator.runMigs benignEnv freshDB.data [sampleMig1] =
        Migrator.runMigs { driftMigrator with log := driftMigrator.log ++
            [{ name := sampleMig1.name, hash := sampleMig1.hash, status := PREVIOUS,
               details := "hash mismatch DB: " ++ "old" ++ " Migration: " ++ sampleMig1.hash }] }
          benignEnv freshDB.data [])) :=
  ⟨⟨by decide, by decide, by decide⟩,
   C2_drift_modes benignEnv driftMigrator freshDB.data sampleMig1 [] "old"
     (by decide) (by decide) (by decide)⟩

/-- C4 (counterexample): the add-time checksum is NOT the digest of the
statement text concatenated with the string representation of each bound
argument in order: for statement `S` with arguments `a`, `b` the code
hashes `S[a b]` (the Go rendering of the whole argument slice), which
differs from the digest of `Sab`. -/
theorem C4_checksum_counterexample :
    ((mkMigrator "migrations" "public").AddMigration "m1" "c" "S"
        [GoVal.str "a", GoVal.str "b"]).map
      (fun m2 => m2.migrations.map (fun g => g.hash)) =
      .ok [hashQuery "S" [GoVal.slice [GoVal.str "a", GoVal.str "b"]]] ∧
    hashQuery "S" [GoVal.slice [GoVal.str "a", GoVal.str "b"]] ≠
      md5Hex (strBytes ("S" ++ "a" ++ "b")) := by
  refine ⟨rfl, by decide⟩

/-- C4 (amended): the checksum computed at add time equals the MD5 hex
digest of the statement text concatenated with the Go rendering of the
whole argument slice (bracketed, space-separated); it is computed once, at
add time, purely — two `AddMigration` calls with the same statement and
arguments, on any migrators and under any names, store the same checksum. -/
theorem C4_checksum_formula (m : Migrator) (name comment statement : String)
    (args : List GoVal) (m2 : Migrator)
    (h : m.AddMigration name comment statement args = .ok m2)
    (mB : Migrator) (nameB commentB : String) (mB2 : Migrator)
    (hB : mB.AddMigration nameB commentB statement args = .ok mB2) :
    m2.migrations = m.migrations ++
      [{ name := name, comment := comment,
         hash := md5Hex (strBytes (statement ++ goFmt (GoVal.slice args))),
         statement := statement, args := args }] ∧
    mB2.migrations = mB.migrations ++
      [{ name := nameB, comment := commentB,
         hash := md5Hex (strBytes (statement ++ goFmt (GoVal.slice args))),
         statement := statement, args := args }] := by
  unfold Migrator.AddMigration at h hB
  by_cases hn : name ∈ m.names
  · rw [if_pos hn] at h; cases h
  · rw [if_neg hn] at h
    by_cases hnB : nameB ∈ mB.names
    · rw [if_pos hnB] at hB; cases hB
    · rw [if_neg hnB] at hB
      cases h
      cases hB
      exact ⟨rfl, rfl⟩

/-- Witness for C4 at a concrete input. -/
theorem C4_checksum_formula_witness :
    (((mkMigrator "migrations" "public").AddMigration "m1" "c1" "S"
        [GoVal.str "a"]).isOk ∧
     ((mkMigrator "other" "public").AddMigration "different name" "c2" "S"
        [GoVal.str "a"]).isOk) ∧
    (∀ m2 mB2,
      (mkMigrator "migrations" "public").AddMigration "m1" "c1" "S"
        [GoVal.str "a"] = .ok m2 →
      (mkMigrator "other" "public").AddMigration "different name" "c2" "S"
        [GoVal.str "a"] = .ok mB2 →
      m2.migrations =
        [{ name := "m1", comment := "c1",
           hash := md5Hex (strBytes ("S" ++ goFmt (GoVal.slice [GoVal.str "a"]))),
           statement := "S", args := [GoVal.str "a"] }] ∧
      mB2.migrations =
        [{ name := "different name", comment := "c2",
           hash := md5Hex (strBytes ("S" ++ goFmt (GoVal.slice [GoVal.str "a"]))),
           statement := "S", args := [GoVal.str "a"] }]) :=
  ⟨⟨rfl, rfl⟩, fun m2 mB2 h hB =>
    C4_checksum_formula (mkMigrator "migrations" "public") "m1" "c1" "S"
      [GoVal.str "a"] m2 h (mkMigrator "other" "public") "different name" "c2" mB2 hB⟩

/-- C8 (counterexample): constructing a second Migrator that selects the
same dialect key ("postgres", via the `pgx` driver) redirects the shared
adapter instance: the first migrator's backend afterwards operates on the
second's handle, table and schema, not its own. -/
theorem C8_binding_counterexample :
    regRun1.2.2 = none ∧ regRun2.2.2 = none ∧
    regRun1.1.backendKey = some "postgres" ∧
    activeBinding regRun2.2.1 regRun1.1 =
      some { db := 2, table := "t2", tableSchema := "public" } ∧
    activeBinding regRun2.2.1 regRun1.1 ≠
      some { db := 1, table := "t1", tableSchema := "public" } := by
  refine ⟨rfl, rfl, rfl, rfl, by decide⟩

/-- C8 (amended): each dialect key points at one shared adapter instance;
`UseBackend` re-runs `Setup` on that shared instance, so after any second
migrator binds the same key, the first migrator's backend operates on the
second migrator's database handle, table name and schema. -/
theorem C8_shared_binding (reg : Registry) (m1 m2 : MigratorRef) (key : String)
    (m2b : MigratorRef) (reg2 : Registry)
    (hbound : m1.backendKey = some key)
    (h : m2.UseBackend reg key = .ok (m2b, reg2)) :
    activeBinding reg2 m1 =
      some { db := m2.db, table := m2.tableName, tableSchema := m2.tableSchema } ∧
    m2b.backendKey = some key := by
  unfold MigratorRef.UseBackend at h
  by_cases hk : (reg.lookup key).isSome
  · rw [if_pos hk] at h
    cases h
    constructor
    · unfold activeBinding
      rw [hbound]
      exact lookup_map_overwrite_self reg key _ hk
    · rfl
  · rw [if_neg hk] at h
    cases h

/-- Witness for C8 at a concrete input. -/
theorem C8_shared_binding_witness :
    (regRun1.1.backendKey = some "postgres" ∧
     MigratorRef.UseBackend
        { db := 2, tableName := "t2", tableSchema := "public", backendKey := none }
        regRun1.2.1 "postgres" =
      .ok ({ db := 2, tableName := "t2", tableSchema := "public",
             backendKey := some "postgres" }, regRun2.2.1)) ∧
    (activeBinding regRun2.2.1 regRun1.1 =
      some { db := 2, table := "t2", tableSchema := "public" } ∧
     ({ db := 2, tableName := "t2", tableSchema := "public",
        backendKey := some "postgres" } : MigratorRef).backendKey = some "postgres") :=
  ⟨⟨rfl, rfl⟩,
   C8_shared_binding regRun1.2.1 regRun1.1
     { db := 2, tableName := "t2", tableSchema := "public", backendKey := none }
     "postgres" _ _ rfl rfl⟩

/-- C10: in the sequential interleavings of two registrations under the
same key, the first succeeds and the second fails with an already-exists
error, for either order of the two instances (the registry itself,
however, is a plain unsynchronised Go map — see the results entry). -/
theorem C10_sequential_registration :
    (RegisterBackend defaultRegistry "mydb" { db := 1, table := "t1", tableSchema := "s1" } =
      .ok (defaultRegistry ++ [("mydb", { db := 1, table := "t1", tableSchema := "s1" })])) ∧
    (RegisterBackend (defaultRegistry ++ [("mydb", { db := 1, table := "t1", tableSchema := "s1" })])
        "mydb" { db := 2, table := "t2", tableSchema := "s2" } =
      .error "backend with key mydb already exists") ∧
    (RegisterBackend defaultRegistry "mydb" { db := 2, table := "t2", tableSchema := "s2" } =
      .ok (defaultRegistry ++ [("mydb", { db := 2, table := "t2", tableSchema := "s2" })])) ∧
    (RegisterBackend (defaultRegistry ++ [("mydb", { db := 2, table := "t2", tableSchema := "s2" })])
        "mydb" { db := 1, table := "t1", tableSchema := "s1" } =
      .error "backend with key mydb already exists") := by
  exact ⟨rfl, rfl, rfl, rfl⟩

set_option maxHeartbeats 2000000 in
theorem BackendType_cases (d : String) :
    BackendType d = "postgres" ∨ BackendType d = "mysql" ∨ BackendType d = "sqlite" ∨
    BackendType d = "oracle" ∨ BackendType d = "sqlserver" ∨ BackendType d = "unknown" := by
  have hmap : backendMap =
      [("postgres", "postgres"), ("pgx", "postgres"), ("pq-timeouts", "postgres"),
       ("cloudsqlpostgres", "postgres"), ("nrpostgres", "postgres"),
       ("cockroach", "postgres"), ("mysql", "mysql"), ("nrmysql", "mysql"),
       ("sqlite", "sqlite"), ("sqlite3", "sqlite"), ("nrsqlite3", "sqlite"),
       ("oci8", "oracle"), ("ora", "oracle"), ("goracle", "oracle"),
       ("godror", "oracle"), ("sqlserver", "sqlserver")] := by rfl
  unfold BackendType
  cases hl : backendMap.lookup d with
  | none => simp
  | some t =>
    have hmem := lookup_mem _ _ _ hl
    rw [hmap] at hmem
    simp only [List.mem_cons, List.not_mem_nil, or_false] at hmem
    rcases hmem with h|h|h|h|h|h|h|h|h|h|h|h|h|h|h|h <;>
      (rw [Prod.mk.injEq] at h; rw [h.2]; simp)

/-- C9: with only the default registrations, `New` returns an error exactly
when the connection's driver name resolves to a dialect key with no
registered backend — the sentinel `"unknown"` or the built-in `"oracle"` /
`"sqlserver"` keys — and in that case the returned migrator has no backend
bound; `New` succeeds exactly when the driver resolves to `"postgres"`,
`"mysql"` or `"sqlite"`. -/
theorem C9_new_binding (db : Nat) (driver table schema : String) :
    ((New defaultRegistry db driver table schema).2.2.isSome ↔
      (BackendType driver = "unknown" ∨ BackendType driver = "oracle" ∨
       BackendType driver = "sqlserver")) ∧
    ((New defaultRegistry db driver table schema).2.2.isSome →
      (New defaultRegistry db driver table schema).1.backendKey = none) ∧
    ((New defaultRegistry db driver table schema).2.2 = none ↔
      (BackendType driver = "postgres" ∨ BackendType driver = "mysql" ∨
       BackendType driver = "sqlite")) := by
  rcases BackendType_cases driver with hk | hk | hk | hk | hk | hk <;>
    simp [New, MigratorRef.UseBackend, defaultRegistry, lookup_cons, hk]

/-- C6 (counterexample): after a run has applied the scheduled checksum
rewrite for `m1`, a second run of the same Migrator instance sends the same
repair `UPDATE` again without the name being scheduled anew. -/
theorem C6_repair_counterexample :
    repairRunA.err = none ∧
    repairRunA.trace = [("m1", hashQuery "S" [GoVal.slice []])] ∧
    repairRunB.err = none ∧
    repairRunB.trace = [("m1", hashQuery "S" [GoVal.slice []])] ∧
    repairRunB.trace ≠ [] := by
  exact ⟨by decide, by decide, by decide, by decide, by decide⟩

/-- C6 (amended): the repair schedule is never cleared from the Migrator
instance.  A scheduled name matching a migration has its checksum written
by the run, remains scheduled (now carrying the current checksum)
afterwards, and the next run of the same instance writes that stored
checksum again. -/
theorem C6_repair_reapplied (env : Env) (m : Migrator) (db : DB) (mig : Migration)
    (h1 : env.hasTableErr = none) (h2 : env.createErr = none)
    (h3 : env.repairErr = none) (h4 : env.queryPreviousErr = none)
    (hmem : mig ∈ m.migrations) (hnd : (m.migrations.map (fun g => g.name)).Nodup)
    (hsch : (m.repair.lookup mig.name).isSome) (hh : mig.hash ≠ "") :
    (mig.name, mig.hash) ∈ (m.run env db).trace ∧
    (m.run env db).m.repair.lookup mig.name = some mig.hash ∧
    (mig.name, mig.hash) ∈ ((m.run env db).m.run env (m.run env db).db).trace := by
  obtain ⟨db1, m3, tx1, ws, hdb1data, hdb1te, hprev, hmigs, hsafe, hnames, htn,
    hkeys, hlog, hempty, hmem3, hrun⟩ := run_plumb m env db h1 h2 h3 h4
  have hm3 := hmem3 mig hmem hnd hsch
  rcases hr : m3.runMigs env tx1 m3.migrations with ⟨m4, tx2, err⟩
  have hm4rep : m4.repair = m3.repair := by
    have hf := runMigs_fields env m3.migrations m3 tx1
    rw [hr] at hf
    exact hf.2.2.2.1
  have hm4migs : m4.migrations = m3.migrations := by
    have hf := runMigs_fields env m3.migrations m3 tx1
    rw [hr] at hf
    exact hf.2.1
  have htrace : (m.run env db).trace = ws := by
    rw [hrun, hr]; cases err <;> rfl
  have hm4 : (m.run env db).m = m4 := by
    rw [hrun, hr]; cases err <;> rfl
  have hrep4 : (m.run env db).m.repair.lookup mig.name = some mig.hash := by
    rw [hm4, hm4rep]
    exact hm3.1
  refine ⟨by rw [htrace]; exact hm3.2 hh, hrep4, ?_⟩
  obtain ⟨db1p, m3p, tx1p, wsp, _, _, _, hmigsp, _, _, _, _, _, _, hmem3p, hrunp⟩ :=
    run_plumb (m.run env db).m env (m.run env db).db h1 h2 h3 h4
  have hmemp : mig ∈ (m.run env db).m.migrations := by
    rw [hm4, hm4migs, hmigs]; exact hmem
  have hndp : ((m.run env db).m.migrations.map (fun g => g.name)).Nodup := by
    rw [hm4, hm4migs, hmigs]; exact hnd
  have hschp : ((m.run env db).m.repair.lookup mig.name).isSome := by
    rw [hrep4]; rfl
  have hm3p := hmem3p mig hmemp hndp hschp
  rcases hrp : m3p.runMigs env tx1p m3p.migrations with ⟨m4p, tx2p, errp⟩
  have htracep : ((m.run env db).m.run env (m.run env db).db).trace = wsp := by
    rw [hrunp, hrp]; cases errp <;> rfl
  rw [htracep]
  exact hm3p.2 hh

/-- Witness for C6 at a concrete input. -/
theorem C6_repair_reapplied_witness :
    (repairMig ∈ repairMigrator.migrations ∧
     (repairMigrator.migrations.map (fun g => g.name)).Nodup ∧
     (repairMigrator.repair.lookup repairMig.name).isSome ∧
     repairMig.hash ≠ "") ∧
    ((repairMig.name, repairMig.hash) ∈ (repairMigrator.run benignEnv repairDB).trace ∧
     (repairMigrator.run benignEnv repairDB).m.repair.lookup repairMig.name =
       some repairMig.hash ∧
     (repairMig.name, repairMig.hash) ∈
       ((repairMigrator.run benignEnv repairDB).m.run benignEnv
         (repairMigrator.run benignEnv repairDB).db).trace) :=
  ⟨⟨List.mem_singleton_self _, by decide, by decide, by decide⟩,
   C6_repair_reapplied benignEnv repairMigrator repairDB repairMig rfl rfl rfl rfl
     (List.mem_singleton_self _) (by decide) (by decide) (by decide)⟩

/-- C7 (counterexample): in a run that schedules a repair for `m1`, the
repair `UPDATE` is executed in the transaction (see the trace) before the
Applied ledger is fetched, yet the fetched mapping still carries the old
committed checksum: the fetch goes through the backend's database handle,
outside the open transaction, and does not reflect the repaired checksum. -/
theorem C7_fetch_counterexample :
    repairRunA.err = none ∧
    repairRunA.trace = [("m1", hashQuery "S" [GoVal.slice []])] ∧
    repairRunA.m.previous.lookup "m1" = some "old" ∧
    "old" ≠ hashQuery "S" [GoVal.slice []] := by
  exact ⟨by decide, by decide, by decide, by decide⟩

/-- C7 (amended): the Applied ledger fetched during a run is the committed
pre-run ledger (the fetch goes through the backend's database handle,
outside the open transaction, so it does not reflect the repairs written in
the transaction); the drift comparison instead accounts for repairs through
the in-memory repair schedule: after the run, any migration whose name was
scheduled passes `hashIsValid`. -/
theorem C7_fetch_outside_tx (env : Env) (m : Migrator) (db : DB)
    (h1 : env.hasTableErr = none) (h2 : env.createErr = none)
    (h3 : env.repairErr = none) (h4 : env.queryPreviousErr = none)
    (hnd : (m.migrations.map (fun g => g.name)).Nodup) :
    (m.run env db).m.previous = buildMap db.data.applied ∧
    (∀ mig ∈ m.migrations, ((m.repair.lookup mig.name).isSome) →
      ((m.run env db).m.hashIsValid mig).2 = true) := by
  obtain ⟨db1, m3, tx1, ws, hdb1data, hdb1te, hprev, hmigs, hsafe, hnames, htn,
    hkeys, hlog, hempty, hmem3, hrun⟩ := run_plumb m env db h1 h2 h3 h4
  rcases hr : m3.runMigs env tx1 m3.migrations with ⟨m4, tx2, err⟩
  have hm4prev : m4.previous = m3.previous := by
    have hf := runMigs_fields env m3.migrations m3 tx1
    rw [hr] at hf
    exact hf.1
  have hm4rep : m4.repair = m3.repair := by
    have hf := runMigs_fields env m3.migrations m3 tx1
    rw [hr] at hf
    exact hf.2.2.2.1
  have hm4 : (m.run env db).m = m4 := by
    rw [hrun, hr]; cases err <;> rfl
  constructor
  · rw [hm4, hm4prev, hprev]
  · intro mig hmem hsch
    have hm3 := hmem3 mig hmem hnd hsch
    have hlk : (m.run env db).m.repair.lookup mig.name = some mig.hash := by
      rw [hm4, hm4rep]
      exact hm3.1
    unfold Migrator.hashIsValid
    rw [hlk]
    simp

/-- Witness for C7 at a concrete input. -/
theorem C7_fetch_outside_tx_witness :
    ((repairMigrator.migrations.map (fun g => g.name)).Nodup) ∧
    ((repairMigrator.run benignEnv repairDB).m.previous =
      buildMap repairDB.data.applied ∧
     (∀ mig ∈ repairMigrator.migrations,
       ((repairMigrator.repair.lookup mig.name).isSome) →
       ((repairMigrator.run benignEnv repairDB).m.hashIsValid mig).2 = true)) :=
  ⟨by decide,
   C7_fetch_outside_tx benignEnv repairMigrator repairDB rfl rfl rfl rfl (by decide)⟩

/-- C3: running a ledger with distinct names twice against a fresh database
in a benign environment: the first (safe-mode) run executes and records
every migration with status `SUCCESS` (after creating the tracking table),
and the second run of the same ledger executes none of them, logs every
migration with status `PREVIOUS` ("migration already run", no mismatch),
returns no error, and leaves the database unchanged. -/
theorem C3_idempotence (env : Env) (m : Migrator) (db : DB)
    (h1 : env.hasTableErr = none) (h2 : env.createErr = none)
    (h3 : env.repairErr = none) (h4 : env.queryPreviousErr = none)
    (hx : ∀ s, env.execErr s = none) (hi : ∀ n, env.insertErr n = none)
    (hfresh : db.data.applied = []) (hte : db.tableExists = false)
    (hlog : m.log = []) (hrep0 : m.repair = [])
    (hnd : (m.migrations.map (fun g => g.name)).Nodup) :
    (m.Run env db).err = none ∧
    (m.Run env db).m.log = createLogEntry m.tableName :: m.migrations.map (fun g =>
      { name := g.name, hash := g.hash, status := SUCCESS,
        details := "ran migration successfully" }) ∧
    (m.Run env db).db.data.applied = m.migrations.map (fun g => (g.name, g.hash)) ∧
    (m.Run env (m.Run env db).db).err = none ∧
    (m.Run env (m.Run env db).db).m.log = m.migrations.map (fun g =>
      { name := g.name, hash := g.hash, status := PREVIOUS,
        details := "migration already run" }) ∧
    (m.Run env (m.Run env db).db).db = (m.Run env db).db := by
  have hRun : m.Run env db = ({ m with safe := true } : Migrator).run env db := rfl
  -- first run
  obtain ⟨db1, m3, tx1, ws, hdb1data, hdb1te, hprev, hmigs, hsafe, hnames, htn,
    hkeys, hlog3, hempty, hmem3, hrun⟩ :=
    run_plumb { m with safe := true } env db h1 h2 h3 h4
  have hemp := hempty hrep0
  have hloop := runMigs_all_new env hx hi m3.migrations m3 tx1
    (fun mig hmem => by rw [hprev, hfresh]; rfl)
  have hm3log : m3.log = [createLogEntry m.tableName] := by
    rw [hlog3, hte]
    simp [hlog]
  -- outcome of run 1
  have hout1 : m.Run env db =
      ⟨{ m3 with log := m3.log ++ m3.migrations.map (fun g =>
          { name := g.name, hash := g.hash, status := SUCCESS,
            details := "ran migration successfully" }) },
       { db1 with data :=
         { applied := tx1.applied ++ m3.migrations.map (fun g => (g.name, g.hash)),
           execed := tx1.execed ++ m3.migrations.map (fun g => g.statement) } },
       ws, none⟩ := by
    rw [hRun, hrun, hloop]
  have happlied1 : (m.Run env db).db.data.applied =
      m.migrations.map (fun g => (g.name, g.hash)) := by
    rw [hout1]
    show tx1.applied ++ _ = _
    rw [hemp.1, hfresh, hmigs]
    rfl
  have hte1 : (m.Run env db).db.tableExists = true := by
    rw [hout1]
    exact hdb1te
  refine ⟨by rw [hout1], ?_, happlied1, ?_⟩
  · rw [hout1]
    show m3.log ++ _ = _
    rw [hm3log, hmigs]
    rfl
  -- second run
  obtain ⟨db1p, m3p, tx1p, wsp, hdb1pdata, hdb1pte, hprevp, hmigsp, hsafep, hnamesp,
    htnp, hkeysp, hlog3p, hemptyp, hmem3p, hrunp⟩ :=
    run_plumb { m with safe := true } env (m.Run env db).db h1 h2 h3 h4
  have hempp := hemptyp hrep0
  have hprevmap : m3p.previous = m.migrations.map (fun g => (g.name, g.hash)) := by
    rw [hprevp, happlied1, buildMap_nodup]
    rw [List.map_map]
    exact hnd
  have hloopp := runMigs_all_prev env m3p.migrations m3p tx1p
    (fun mig hmem => by
      rw [hprevmap]
      refine lookup_pairs_of_mem m.migrations mig ?_ hnd
      rw [hmigsp] at hmem
      exact hmem)
  have hm3plog : m3p.log = [] := by
    rw [hlog3p, hte1]
    simp [hlog]
  have hout2 : m.Run env (m.Run env db).db =
      ⟨{ m3p with log := m3p.log ++ m3p.migrations.map (fun g =>
          { name := g.name, hash := g.hash, status := PREVIOUS,
            details := "migration already run" }) },
       { db1p with data := tx1p }, wsp, none⟩ := by
    have hRun2 : m.Run env (m.Run env db).db =
        ({ m with safe := true } : Migrator).run env (m.Run env db).db := rfl
    rw [hRun2, hrunp, hloopp]
  have hdbeq : ({ db1p with data := tx1p } : DB) = (m.Run env db).db := by
    have hd : tx1p = (m.Run env db).db.data := hempp.1
    have ht : db1p.tableExists = (m.Run env db).db.tableExists := by
      rw [hdb1pte, hte1]
    calc ({ db1p with data := tx1p } : DB)
        = { tableExists := (m.Run env db).db.tableExists,
            data := (m.Run env db).db.data } := by rw [← hd, ← ht]
      _ = (m.Run env db).db := rfl
  refine ⟨by rw [hout2], ?_, by rw [hout2]; exact hdbeq⟩
  rw [hout2]
  show m3p.log ++ _ = _
  rw [hm3plog, hmigsp]
  rfl

/-- Witness for C3 at a concrete input: the two-migration ledger against a
fresh database. -/
theorem C3_idempotence_witness :
    ((sampleLedger2.migrations.map (fun g => g.name)).Nodup) ∧
    ((sampleLedger2.Run benignEnv freshDB).err = none ∧
     (sampleLedger2.Run benignEnv freshDB).m.log =
       createLogEntry sampleLedger2.tableName :: sampleLedger2.migrations.map (fun g =>
         { name := g.name, hash := g.hash, status := SUCCESS,
           details := "ran migration successfully" }) ∧
     (sampleLedger2.Run benignEnv freshDB).db.data.applied =
       sampleLedger2.migrations.map (fun g => (g.name, g.hash)) ∧
     (sampleLedger2.Run benignEnv (sampleLedger2.Run benignEnv freshDB).db).err = none ∧
     (sampleLedger2.Run benignEnv (sampleLedger2.Run benignEnv freshDB).db).m.log =
       sampleLedger2.migrations.map (fun g =>
         { name := g.name, hash := g.hash, status := PREVIOUS,
           details := "migration already run" }) ∧
     (sampleLedger2.Run benignEnv (sampleLedger2.Run benignEnv freshDB).db).db =
       (sampleLedger2.Run benignEnv freshDB).db) :=
  ⟨by decide,
   C3_idempotence benignEnv sampleLedger2 freshDB rfl rfl rfl rfl
     (fun _ => rfl) (fun _ => rfl) rfl rfl rfl rfl (by decide)⟩

/-- C5 (counterexample): the returned log is the instance's accumulated
log.  Running the one-migration ledger twice on the same instance, the
second `Run` attempts exactly one migration and creates no table, yet
returns three entries (the first run's create entry and `m1` entry are
still there), not the single entry the claim predicts. -/
theorem C5_log_counterexample :
    logRunB.err = none ∧
    logRunA.db.tableExists = true ∧
    logRunB.m.log.map (fun l => l.name) = ["create_migrations_table", "m1", "m1"] ∧
    logRunB.m.log.map (fun l => l.name) ≠ ["m1"] := by
  exact ⟨by decide, by decide, by decide, by decide⟩

/-- C5 (amended): for every run, the returned log equals the entries
accumulated on the instance before the run, then one synthetic
`create_<table>_table` entry if tracking-table creation was attempted in
this run (the table was absent and the existence check succeeded — the
entry appears even if the creation itself fails), then exactly one entry
per attempted migration, in exactly the order the migrations were added;
when the run returns no error, every migration of the ledger is attempted. -/
theorem C5_log_structure (env : Env) (m : Migrator) (db : DB) :
    ∃ k, k ≤ m.migrations.length ∧
      (m.run env db).m.log.map (fun l => l.name) =
        m.log.map (fun l => l.name) ++
        (if db.tableExists = false ∧ env.hasTableErr = none then
          ["create_" ++ m.tableName ++ "_table"] else []) ++
        ((m.migrations.map (fun g => g.name)).take k) ∧
      ((m.run env db).err = none → k = m.migrations.length) := by
  cases hht : env.hasTableErr with
  | some e =>
    have hrun0 : m.run env db =
        ⟨m, db, [], some ("the migration table check failed: " ++ e)⟩ := by
      simp only [Migrator.run, backendHasMigrationTable, hht]
    refine ⟨0, Nat.zero_le _, ?_, ?_⟩
    · rw [hrun0]
      simp [hht]
    · rw [hrun0]
      intro h
      exact Option.noConfusion h
  | none =>
    have hcheck : backendHasMigrationTable env db = .ok db.tableExists := by
      simp [backendHasMigrationTable, hht]
    have hcont : ∀ (m1 : Migrator) (db1 : DB),
        m1.migrations = m.migrations →
        m.run env db =
          (match m1.repairHashes env db1.data with
           | (m2, .error e) =>
             ({ m := m2, db := db1, trace := [],
                err := some ("repair hashes failed: " ++ e) } : RunOut)
           | (m2, .ok (tx1, ws)) =>
             match backendQueryPrevious env db1 with
             | .error e =>
               { m := m2, db := db1, trace := ws,
                 err := some ("get previous migrations failed: " ++ e) }
             | .ok prev =>
               match Migrator.runMigs { m2 with previous := prev } env tx1
                   ({ m2 with previous := prev } : Migrator).migrations with
               | (m4, _, some e) => ⟨m4, db1, ws, some e⟩
               | (m4, tx2, none) => ⟨m4, { db1 with data := tx2 }, ws, none⟩) →
        ∃ k, k ≤ m.migrations.length ∧
          (m.run env db).m.log.map (fun l => l.name) =
            m1.log.map (fun l => l.name) ++
            ((m.migrations.map (fun g => g.name)).take k) ∧
          ((m.run env db).err = none → k = m.migrations.length) := by
      intro m1 db1 hmigs1 hrun
      rcases hrh : m1.repairHashes env db1.data with ⟨m2, res⟩
      have hf2 : m2.log = m1.log ∧ m2.migrations = m1.migrations := by
        have hff := repairHashes_fields m1 env db1.data
        rw [hrh] at hff
        exact ⟨hff.1, hff.2.2.1⟩
      rw [hrh] at hrun
      cases res with
      | error e =>
        have hrun2 : m.run env db =
            ⟨m2, db1, [], some ("repair hashes failed: " ++ e)⟩ := hrun
        refine ⟨0, Nat.zero_le _, ?_, ?_⟩
        · rw [hrun2]
          show m2.log.map (fun l => l.name) = _
          rw [hf2.1]
          simp
        · rw [hrun2]
          intro h
          exact Option.noConfusion h
      | ok pr =>
        obtain ⟨tx1, ws⟩ := pr
        cases hqp : env.queryPreviousErr with
        | some e =>
          have hq : backendQueryPrevious env db1 = .error e := by
            simp [backendQueryPrevious, hqp]
          rw [hq] at hrun
          have hrun2 : m.run env db =
              ⟨m2, db1, ws, some ("get previous migrations failed: " ++ e)⟩ := hrun
          refine ⟨0, Nat.zero_le _, ?_, ?_⟩
          · rw [hrun2]
            show m2.log.map (fun l => l.name) = _
            rw [hf2.1]
            simp
          · rw [hrun2]
            intro h
            exact Option.noConfusion h
        | none =>
          have hq : backendQueryPrevious env db1 =
              .ok (buildMap db1.data.applied) := by
            simp [backendQueryPrevious, hqp]
          rw [hq] at hrun
          have hrun2 : m.run env db =
              (match Migrator.runMigs { m2 with previous := buildMap db1.data.applied }
                  env tx1
                  ({ m2 with previous := buildMap db1.data.applied } : Migrator).migrations with
               | (m4, _, some e) => ⟨m4, db1, ws, some e⟩
               | (m4, tx2, none) => ⟨m4, { db1 with data := tx2 }, ws, none⟩) := hrun
          obtain ⟨k, hk, hnames, herr⟩ := runMigs_log_names env
            ({ m2 with previous := buildMap db1.data.applied } : Migrator).migrations
            { m2 with previous := buildMap db1.data.applied } tx1
          have hmigs2 : ({ m2 with previous := buildMap db1.data.applied } : Migrator).migrations
              = m.migrations := by
            show m2.migrations = m.migrations
            rw [hf2.2, hmigs1]
          rcases hr : Migrator.runMigs { m2 with previous := buildMap db1.data.applied }
              env tx1
              ({ m2 with previous := buildMap db1.data.applied } : Migrator).migrations
            with ⟨m4, tx2, err⟩
          rw [hr] at hrun2 hnames herr
          refine ⟨k, by rw [← hmigs2]; exact hk, ?_, ?_⟩
          · have hlogeq : m4.log.map (fun l => l.name) =
                m1.log.map (fun l => l.name) ++
                ((m.migrations.map (fun g => g.name)).take k) := by
              have hn2 : m4.log.map (fun l => l.name) =
                  ({ m2 with previous := buildMap db1.data.applied } : Migrator).log.map
                      (fun l => l.name) ++
                    ((({ m2 with previous := buildMap db1.data.applied } : Migrator).migrations.map
                        (fun g => g.name)).take k) := hnames
              rw [hn2, hmigs2]
              show m2.log.map (fun l => l.name) ++ _ = _
              rw [hf2.1]
            cases err with
            | some e =>
              have hrun3 : m.run env db = ⟨m4, db1, ws, some e⟩ := hrun2
              rw [hrun3]
              exact hlogeq
            | none =>
              have hrun3 : m.run env db =
                  ⟨m4, { db1 with data := tx2 }, ws, none⟩ := hrun2
              rw [hrun3]
              exact hlogeq
          · cases err with
            | some e =>
              have hrun3 : m.run env db = ⟨m4, db1, ws, some e⟩ := hrun2
              rw [hrun3]
              intro h
              exact Option.noConfusion h
            | none =>
              have hke := herr rfl
              rw [hmigs2] at hke
              intro _
              exact hke
    by_cases ht : db.tableExists
    · have hrun0 : m.run env db =
          (match m.repairHashes env db.data with
           | (m2, .error e) =>
             ({ m := m2, db := db, trace := [],
                err := some ("repair hashes failed: " ++ e) } : RunOut)
           | (m2, .ok (tx1, ws)) =>
             match backendQueryPrevious env db with
             | .error e =>
               { m := m2, db := db, trace := ws,
                 err := some ("get previous migrations failed: " ++ e) }
             | .ok prev =>
               match Migrator.runMigs { m2 with previous := prev } env tx1
                   ({ m2 with previous := prev } : Migrator).migrations with
               | (m4, _, some e) => ⟨m4, db, ws, some e⟩
               | (m4, tx2, none) => ⟨m4, { db with data := tx2 }, ws, none⟩) := by
        simp only [Migrator.run, hcheck]
        rw [if_pos ht]
      obtain ⟨k, hk, hn, he⟩ := hcont m db rfl hrun0
      refine ⟨k, hk, ?_, he⟩
      rw [hn]
      simp [ht]
    · rw [Bool.not_eq_true] at ht
      cases hce : env.createErr with
      | some e =>
        have hrun0 : m.run env db =
            ⟨{ m with log := m.log ++
                [{ name := "create_" ++ m.tableName ++ "_table",
                   hash := hashQuery (pgCreateDDL m.tableName) [],
                   status := ERROR, details := e }] }, db, [],
             some ("create " ++ m.tableName ++ " table failed: " ++ e)⟩ := by
          simp only [Migrator.run, hcheck]
          rw [if_neg (by rw [ht]; exact Bool.false_ne_true),
            createMigrationTable_err m env db e hce]
        refine ⟨0, Nat.zero_le _, ?_, ?_⟩
        · rw [hrun0]
          simp [ht, hht]
        · rw [hrun0]
          intro h
          exact Option.noConfusion h
      | none =>
        have hrun0 : m.run env db =
            (match Migrator.repairHashes
                { m with log := m.log ++ [createLogEntry m.tableName] } env
                ({ db with tableExists := true } : DB).data with
             | (m2, .error e) =>
               ({ m := m2, db := { db with tableExists := true }, trace := [],
                  err := some ("repair hashes failed: " ++ e) } : RunOut)
             | (m2, .ok (tx1, ws)) =>
               match backendQueryPrevious env { db with tableExists := true } with
               | .error e =>
                 { m := m2, db := { db with tableExists := true }, trace := ws,
                   err := some ("get previous migrations failed: " ++ e) }
               | .ok prev =>
                 match Migrator.runMigs { m2 with previous := prev } env tx1
                     ({ m2 with previous := prev } : Migrator).migrations with
                 | (m4, _, some e) => ⟨m4, { db with tableExists := true }, ws, some e⟩
                 | (m4, tx2, none) =>
                   ⟨m4, { db with tableExists := true, data := tx2 }, ws, none⟩) := by
          simp only [Migrator.run, hcheck]
          rw [if_neg (by rw [ht]; exact Bool.false_ne_true),
            createMigrationTable_ok m env db hce]
        obtain ⟨k, hk, hn, he⟩ := hcont { m with log := m.log ++ [createLogEntry m.tableName] }
          { db with tableExists := true } rfl hrun0
        refine ⟨k, hk, ?_, he⟩
        rw [hn]
        show (m.log ++ [createLogEntry m.tableName]).map (fun l => l.name) ++ _ = _
        simp [ht, hht, createLogEntry]
